import Mathlib

/-!
Verification of the core of `rick`, a Rust INTERCAL interpreter/compiler
(sources: `src/util.rs`, `src/eval.rs`, `src/opt.rs`), against its
natural-language specification.

Machine integers (`u8`/`u16`/`u32`/`usize`) are embedded as `Nat`; wherever the
Rust code can wrap or truncate, an explicit `% 2^w` (or a mask) appears in the
embedding.  Fallible Rust functions returning `Result<_, Error>` become
`Except Error _`; code paths that can panic (unchecked indexing, `unwrap`,
`unreachable!`) are embedded in an outcome type with an explicit `panic`
constructor.  The support module `stdops.rs` and the AST module `ast.rs` are
not part of the provided sources; the few definitions needed from them are
modelled from the specification and marked as such.
-/

/- ### Error taxonomy (modelled from the spec, §6/§7: the `err` module is not
among the provided sources).  An error carries a numeric code, an optional
source line and an optional auxiliary string. -/

/-- Modelled from the spec: the typed runtime error of the `err` module — a
numeric code, an optional source line, an optional auxiliary string. -/
structure Error where
  code : Nat
  line : Option Nat
  addstr : Option String
deriving DecidableEq, Repr

/-- Modelled from the spec: `err::new` — an error with no line annotation. -/
def Error.new (c : Nat) : Error := ⟨c, none, none⟩

/-- Modelled from the spec: `err::Error::err_with` — an error with an optional
auxiliary string and a source line. -/
def Error.mkWith (c : Nat) (s : Option String) (l : Nat) : Error := ⟨c, some l, s⟩

/-- Modelled from the spec (§7): `set_line` annotates the source line only if
the error does not already carry one. -/
def Error.set_line (e : Error) (l : Nat) : Error :=
  if e.line = none then { e with line := some l } else e

def IE123 : Nat := 123
def IE129 : Nat := 129
def IE240 : Nat := 240
def IE241 : Nat := 241
def IE275 : Nat := 275
def IE436 : Nat := 436
def IE533 : Nat := 533
def IE562 : Nat := 562
def IE621 : Nat := 621
def IE632 : Nat := 632
def IE663 : Nat := 663

/- ### Bit-operator kernel, from `src/util.rs`. -/

/-- One shift-and-mask round of the bit spreading in `util.rs::mingle`: every
line of the form `v = ((v & M) << s) | (v & M')` is an instance. -/
def sprRound (M M' s x : Nat) : Nat :=
  ((x &&& M) <<< s) ||| (x &&& M')

/-- Embeds the four shift-and-mask steps that `util.rs::mingle` applies to each
of its two operands (`util.rs` lines 163-170): spreading the 16 bits of the
operand to the 32 even-indexed bit positions.  All intermediate values stay
below `2^32` when the input is at most `0xFFFF`, so plain `Nat` arithmetic is
exact. -/
def spread16 (x : Nat) : Nat :=
  sprRound 0x22222222 0x11111111 1
    (sprRound 0x0c0c0c0c 0x03030303 2
      (sprRound 0x00f000f0 0x000f000f 4
        (sprRound 0x0000ff00 0x000000ff 8 x)))

/-- The unchecked 32-bit interleave, the final line of `util.rs::mingle`:
`(v << 1) | w` after both operands were spread.  Also serves as the model of
the unchecked `stdops::mingle` used by the evaluator and the optimizer
(modelled from the spec §4.1, `stdops.rs` not being among the sources). -/
def mingle32 (v w : Nat) : Nat :=
  (spread16 v <<< 1) ||| spread16 w

/-- Embeds `util.rs::mingle` (lines 159-172): both inputs must fit in 16 bits,
otherwise error IE533; the result interleaves the bits of the two operands. -/
def mingle (v w : Nat) : Except Error Nat :=
  if v > 65535 ∨ w > 65535 then .error (Error.new IE533)
  else .ok (mingle32 v w)

/-- Embeds the loop of `util.rs::select` (lines 174-188).  `k` counts how often
the u32 cursor `i` has been doubled (`i = (1 <<< k) % 2^32`, matching the
wrapping left shift of a `u32`), `t` is the accumulated result. -/
def selectGo (v w k t : Nat) : Nat :=
  if hw : w = 0 then t
  else
    let i := (1 <<< k) % 4294967296
    if hi : w &&& i ≠ 0 then
      selectGo v (w ^^^ i) (k + 1) (t ||| (v &&& i))
    else
      selectGo (v >>> 1) (w >>> 1) k t
termination_by w
decreasing_by
  · show w ^^^ i < w
    have hk : k < 32 := by
      by_contra hk
      push_neg at hk
      have hdvd : (2:Nat) ^ 32 ∣ 2 ^ k := pow_dvd_pow 2 hk
      have hz : (1 <<< k) % 4294967296 = 0 := by
        obtain ⟨c, hc⟩ := hdvd
        rw [Nat.shiftLeft_eq, one_mul, show (4294967296:Nat) = 2 ^ 32 from by norm_num,
          hc, Nat.mul_mod_right]
      exact hi (by simp [i, hz])
    have hieq : i = 2 ^ k := by
      show (1 <<< k) % 4294967296 = 2 ^ k
      rw [Nat.shiftLeft_eq, one_mul]
      exact Nat.mod_eq_of_lt (by
        calc (2:Nat) ^ k < 2 ^ 32 := Nat.pow_lt_pow_right (by norm_num) hk
        _ = 4294967296 := by norm_num)
    rw [hieq] at hi ⊢
    have htb : w.testBit k = true := by
      by_contra htb
      simp only [Bool.not_eq_true] at htb
      rw [Nat.and_two_pow, htb] at hi
      simp at hi
    refine Nat.lt_of_testBit k ?_ htb ?_
    · rw [Nat.testBit_xor, htb, Nat.testBit_two_pow_self]
      rfl
    · intro j hj
      rw [Nat.testBit_xor, Nat.testBit_two_pow_of_ne (Nat.ne_of_lt hj)]
      simp
  · show w >>> 1 < w
    rw [Nat.shiftRight_one]
    exact Nat.div_lt_self (Nat.pos_of_ne_zero hw) one_lt_two

/-- Embeds `util.rs::select` (lines 174-188): the loop starting with cursor
`i = 1` and accumulator `t = 0`; always returns `Ok`. -/
def select (v w : Nat) : Except Error Nat :=
  .ok (selectGo v w 0 0)

/-- The unchecked select used by the evaluator and optimizer via `stdops`
(modelled from the spec §4.1; same algorithm as `util.rs::select`). -/
def select32 (v w : Nat) : Nat := selectGo v w 0 0

/-- Embeds `util.rs::and_16` (lines 190-196): rotate right by one within 16
bits, then AND with the original value.  `util.rs` takes a `u16`; the same
formula also embeds the `u32`-typed `stdops::and_16` used by the evaluator. -/
def and_16 (v : Nat) : Nat :=
  let w := v >>> 1
  let w := if v &&& 1 > 0 then w ||| 0x8000 else w
  w &&& v

/-- Embeds `util.rs::and_32` (lines 198-204). -/
def and_32 (v : Nat) : Nat :=
  let w := v >>> 1
  let w := if v &&& 1 > 0 then w ||| 0x80000000 else w
  w &&& v

/-- Embeds `util.rs::or_16` (lines 206-212). -/
def or_16 (v : Nat) : Nat :=
  let w := v >>> 1
  let w := if v &&& 1 > 0 then w ||| 0x8000 else w
  w ||| v

/-- Embeds `util.rs::or_32` (lines 214-220). -/
def or_32 (v : Nat) : Nat :=
  let w := v >>> 1
  let w := if v &&& 1 > 0 then w ||| 0x80000000 else w
  w ||| v

/-- Embeds `util.rs::xor_16` (lines 222-228). -/
def xor_16 (v : Nat) : Nat :=
  let w := v >>> 1
  let w := if v &&& 1 > 0 then w ||| 0x8000 else w
  w ^^^ v

/-- Embeds `util.rs::xor_32` (lines 230-236). -/
def xor_32 (v : Nat) : Nat :=
  let w := v >>> 1
  let w := if v &&& 1 > 0 then w ||| 0x80000000 else w
  w ^^^ v

/-- Written from the spec's words (§4.1, §8) for comparison with the code:
rotate-right-by-1 of `v` within `W` bits — the low bit of `v` becomes the top
bit of the result. -/
def rotr1 (W v : Nat) : Nat :=
  (v >>> 1) ||| ((v % 2) <<< (W - 1))

/-- Byte-level restriction of the last three spreading steps of
`spread16`; used to characterise `spread16` by splitting its input into two
bytes (the masks of those steps have identical 16-bit halves). -/
def gstep (b : Nat) : Nat :=
  sprRound 0x2222 0x1111 1
    (sprRound 0x0c0c 0x0303 2
      (sprRound 0x00f0 0x000f 4 b))

/-- Reference bit-extraction function: keep the bits of `v` at positions where
`w` has a set bit, packed contiguously at the low end (the spec's description
of SELECT, §4.1).  `selectGo` is proved to agree with it. -/
def extract (v w : Nat) : Nat :=
  if hw : w = 0 then 0
  else if w % 2 = 1 then 2 * extract (v / 2) (w / 2) + v % 2
  else extract (v / 2) (w / 2)
termination_by w
decreasing_by
  all_goals exact Nat.div_lt_self (Nat.pos_of_ne_zero hw) one_lt_two

/-- The 32-bit alternating mask with ones in odd positions, generalised:
`maskB n` has ones exactly at the even positions `0, 2, …, 2(n-1)`,
`maskA n = 2 * maskB n` at the odd positions.  `maskA 16 = 0xAAAAAAAA` and
`maskB 16 = 0x55555555`. -/
def maskB : Nat → Nat
  | 0 => 0
  | n + 1 => 4 * maskB n + 1

def maskA (n : Nat) : Nat := 2 * maskB n

/- ### The value type of the evaluator, from `src/eval.rs` lines 27-69. -/

/-- Embeds `eval.rs::Val`: a tagged narrow (16-bit) or wide (32-bit) integer. -/
inductive Val where
  | I16 (v : Nat)
  | I32 (v : Nat)
deriving DecidableEq, Repr

/-- Embeds `Val::as_u16` (eval.rs lines 36-46): error IE275 when a wide value
does not fit in 16 bits. -/
def Val.as_u16 : Val → Except Error Nat
  | .I16 v => .ok v
  | .I32 v => if v > 65535 then .error (Error.new IE275) else .ok v

/-- Embeds `Val::as_u32` (eval.rs lines 49-54). -/
def Val.as_u32 : Val → Nat
  | .I16 v => v
  | .I32 v => v

/-- Embeds `Val::as_usize` (eval.rs lines 57-59). -/
def Val.as_usize (v : Val) : Nat := v.as_u32

/-- Embeds `Val::from_u32` (eval.rs lines 62-68): selects the smallest
possible width; `v as u16` is the identity under the guard `v &&& 0xFFFF = v`. -/
def Val.from_u32 (v : Nat) : Val :=
  if v &&& 0xFFFF = v then .I16 v else .I32 v

/- ### The AST, from `ast.rs` (not among the provided sources; shapes are
modelled from the spec §3 and from the patterns matched by `eval.rs` and
`opt.rs`; where the two provided files disagree — they stem from different
revisions — the shapes matched by `opt.rs` are used and the evaluator arms
adapted, as noted inline). -/

/-- Modelled from the spec: expression width tags. -/
inductive VType where
  | I16
  | I32
deriving DecidableEq, Repr

mutual

/-- Modelled from the spec (§3 `Expr`): INTERCAL expression trees, including
the optimizer-introduced host-native `Rs*` variants. -/
inductive Expr where
  | Num (t : VType) (v : Nat)
  | Var (v : Var)
  | Mingle (vx wx : Expr)
  | Select (t : VType) (vx wx : Expr)
  | And (t : VType) (vx : Expr)
  | Or (t : VType) (vx : Expr)
  | Xor (t : VType) (vx : Expr)
  | RsAnd (vx wx : Expr)
  | RsOr (vx wx : Expr)
  | RsXor (vx wx : Expr)
  | RsNot (vx : Expr)
  | RsRshift (vx wx : Expr)
  | RsLshift (vx wx : Expr)
  | RsPlus (vx wx : Expr)
  | RsMinus (vx wx : Expr)
  | RsNotEqual (vx wx : Expr)

/-- Modelled from the spec (§3 `Var`): variable references; array references
carry subscript expressions. -/
inductive Var where
  | I16 (n : Nat)
  | I32 (n : Nat)
  | A16 (n : Nat) (subs : List Expr)
  | A32 (n : Nat) (subs : List Expr)

end

mutual

/-- Structural equality on expressions (the derived `PartialEq` of `ast.rs`,
used by the optimizer's pattern guards). -/
def Expr.beq : Expr → Expr → Bool
  | .Num t v, .Num t' v' => t = t' && v = v'
  | .Var v, .Var v' => v.beq v'
  | .Mingle a b, .Mingle a' b' => a.beq a' && b.beq b'
  | .Select t a b, .Select t' a' b' => t = t' && a.beq a' && b.beq b'
  | .And t a, .And t' a' => t = t' && a.beq a'
  | .Or t a, .Or t' a' => t = t' && a.beq a'
  | .Xor t a, .Xor t' a' => t = t' && a.beq a'
  | .RsAnd a b, .RsAnd a' b' => a.beq a' && b.beq b'
  | .RsOr a b, .RsOr a' b' => a.beq a' && b.beq b'
  | .RsXor a b, .RsXor a' b' => a.beq a' && b.beq b'
  | .RsNot a, .RsNot a' => a.beq a'
  | .RsRshift a b, .RsRshift a' b' => a.beq a' && b.beq b'
  | .RsLshift a b, .RsLshift a' b' => a.beq a' && b.beq b'
  | .RsPlus a b, .RsPlus a' b' => a.beq a' && b.beq b'
  | .RsMinus a b, .RsMinus a' b' => a.beq a' && b.beq b'
  | .RsNotEqual a b, .RsNotEqual a' b' => a.beq a' && b.beq b'
  | _, _ => false

/-- Structural equality on variable references. -/
def Var.beq : Var → Var → Bool
  | .I16 n, .I16 n' => n = n'
  | .I32 n, .I32 n' => n = n'
  | .A16 n s, .A16 n' s' => n = n' && Expr.beqList s s'
  | .A32 n s, .A32 n' s' => n = n' && Expr.beqList s s'
  | _, _ => false

/-- Structural equality on expression lists. -/
def Expr.beqList : List Expr → List Expr → Bool
  | [], [] => true
  | e :: es, e' :: es' => e.beq e' && Expr.beqList es es'
  | _, _ => false

end

/-- Modelled from the spec (§3 `Abstain-target`): either a specific label or a
statement-type tag. -/
inductive Abstn where
  | Label (n : Nat)
  | Calc
  | Dim
  | DoNext
  | ComeFrom
  | Resume
  | Forget
  | Ignore
  | Remember
  | Stash
  | Retrieve
  | Abstain
  | Reinstate
  | ReadOut
  | WriteIn
  | TryAgain
deriving DecidableEq, Repr

/-- Modelled output events: the spec (§1, §5) treats the Roman-numeral and
byte formatters `write_number` / `write_byte` as external byte-I/O primitives,
so program output is recorded as a stream of these events. -/
inductive OutEvt where
  | num (n : Nat)
  | byte (b : Nat)
deriving DecidableEq, Repr

/-- Modelled from the spec (§3 `StmtBody`).  `Abstain` carries the optional
expression matched as `StmtBody::Abstain(_, whats)` in `opt.rs`; `Print`
carries captured output (a byte string in the source, output events here). -/
inductive StmtBody where
  | Calc (v : Var) (e : Expr)
  | Dim (v : Var) (es : List Expr)
  | DoNext (n : Nat)
  | ComeFrom (n : Nat)
  | Resume (e : Expr)
  | Forget (e : Expr)
  | Ignore (vs : List Var)
  | Remember (vs : List Var)
  | Stash (vs : List Var)
  | Retrieve (vs : List Var)
  | Abstain (cnt : Option Expr) (ws : List Abstn)
  | Reinstate (ws : List Abstn)
  | ReadOut (es : List Expr)
  | WriteIn (v : Var)
  | Print (out : List OutEvt)
  | GiveUp
  | Error (e : Error)

/-- Discriminator for `GiveUp` (the source compares `stmt.body` against
`StmtBody::GiveUp` with derived `PartialEq`; `GiveUp` has no fields, so the
comparison is exactly this discriminator). -/
def StmtBody.isGiveUp : StmtBody → Bool
  | .GiveUp => true
  | _ => false

/-- Modelled from the spec (§3 `Statement` props): source line, chance,
initially-disabled flag, label (0 if none). -/
structure StmtProps where
  label : Nat
  srcline : Nat
  chance : Nat
  disabled : Bool
deriving DecidableEq, Repr

/-- Modelled from the spec (§3 `Statement`): body, props, optional COME-FROM
originator index, `can_abstain` flag. -/
structure Stmt where
  body : StmtBody
  props : StmtProps
  comefrom : Option Nat
  can_abstain : Bool

/-- Modelled from the spec: `Stmt::new_with` — a statement with default props
(chance 100, no label, line 0, not disabled, no COME FROM). -/
def Stmt.new_with (b : StmtBody) : Stmt :=
  { body := b
    props := { label := 0, srcline := 0, chance := 100, disabled := false }
    comefrom := none
    can_abstain := false }

/-- Modelled from the spec (§4.4, pass 5): per-variable optimizer flags. -/
structure VarInfo where
  can_stash : Bool
  can_ignore : Bool
deriving DecidableEq, Repr

/-- Modelled from the spec (§3 `Program`); the field set is the one the
`Program` literal in `opt.rs` lines 413-423 exhibits.  The label map is an
association list with unique keys (a `BTreeMap` in the source); variable
counts are the lengths of the `var_info` tables. -/
structure Program where
  stmts : List Stmt
  labels : List (Nat × Nat)
  stmt_types : List Abstn
  var_info : List VarInfo × List VarInfo × List VarInfo × List VarInfo
  uses_complex_comefrom : Bool
  added_syslib : Bool
  added_floatlib : Bool
  bugline : Nat

/-- Label lookup (`BTreeMap::get`). -/
def Program.lookupLabel (p : Program) (lbl : Nat) : Option Nat :=
  (p.labels.lookup lbl)

/- ### Outcomes.  Rust `Result` is `Except`; a third constructor `panic`
models aborts (unchecked indexing, `unwrap`, `unreachable!`). -/

/-- Outcome of evaluator operations: a value, a typed error, or a Rust panic
(unchecked map/vector indexing, `unwrap`, `unreachable!`). -/
inductive RRes (α : Type) where
  | ok (a : α)
  | err (e : Error)
  | panic
deriving DecidableEq, Repr

instance : Monad RRes where
  pure := .ok
  bind x f := match x with
    | .ok a => f a
    | .err e => .err e
    | .panic => .panic

/-- Lifts a `Result` into the panic-aware outcome type. -/
def liftE : Except Error α → RRes α
  | .ok a => .ok a
  | .error e => .err e

/- ### The variable store, from `stdops.rs` (not among the provided sources;
modelled from the spec §3 "Bindable cell" and §4.2). -/

/-- Modelled from the spec: a bindable cell — current value, read/write flag,
stack of stashed `(value, rw)` snapshots.  Embeds `stdops::Bind` (the name
`Bind` itself is taken by a Lean core class). -/
structure BindCell (α : Type) where
  val : α
  rw : Bool
  stack : List (α × Bool)
deriving DecidableEq, Repr

/-- Modelled from the spec: `Bind::new` — value, rw defaulting to true, empty
stash stack. -/
def BindCell.new (v : α) : BindCell α := ⟨v, true, []⟩

/-- Modelled from the spec §4.2: `assign` — if rw, set the value; else no-op.
Cannot fail. -/
def BindCell.assign (b : BindCell α) (x : α) : BindCell α :=
  if b.rw then { b with val := x } else b

/-- Modelled from the spec §4.2: `stash` — push a `(value, rw)` snapshot. -/
def BindCell.stash (b : BindCell α) : BindCell α :=
  { b with stack := (b.val, b.rw) :: b.stack }

/-- Modelled from the spec §4.2: `retrieve` — pop a snapshot into
`(value, rw)`; empty stack is error IE436. -/
def BindCell.retrieve (b : BindCell α) : Except Error (BindCell α) :=
  match b.stack with
  | [] => .error (Error.new IE436)
  | (v, rw) :: rest => .ok ⟨v, rw, rest⟩

/-- Modelled from the spec: array contents — dimensions and the flat backing
vector (row-major; the spec leaves the ordering to the implementer).  Embeds
`stdops::Array` (the name `Array` is taken by Lean core). -/
structure ArrData where
  dims : List Nat
  vals : List Nat
deriving DecidableEq, Repr

/-- Modelled from the spec: `Array::empty`. -/
def ArrData.empty : ArrData := ⟨[], []⟩

/-- Row-major flat index of 1-based subscripts; `none` when a subscript is out
of range or the arity does not match. -/
def flatIndex : List Nat → List Nat → Option Nat
  | [], [] => some 0
  | d :: ds, s :: ss =>
      if 1 ≤ s ∧ s ≤ d then (flatIndex ds ss).map (fun r => (s - 1) * ds.prod + r)
      else none
  | _, _ => none

/-- Modelled from the spec §4.2: `dimension` — any zero dimension is IE240;
allocates the flat backing vector, zeroed. -/
def BindCell.dimension (b : BindCell ArrData) (dims : List Nat) :
    Except Error (BindCell ArrData) :=
  if dims.contains 0 then .error (Error.new IE240)
  else .ok { b with val := ⟨dims, List.replicate dims.prod 0⟩ }

/-- Modelled from the spec §4.2: `arr_lookup` — out of range is IE241. -/
def BindCell.arr_lookup (b : BindCell ArrData) (subs : List Nat) :
    Except Error Nat :=
  match flatIndex b.val.dims subs with
  | some i =>
      match b.val.vals.get? i with
      | some v => .ok v
      | none => .error (Error.new IE241)
  | none => .error (Error.new IE241)

/-- Modelled from the spec §4.2: `arr_assign` — translate subscripts (out of
range is IE241), then apply the rw gate (a gated store is silently dropped). -/
def BindCell.arr_assign (b : BindCell ArrData) (subs : List Nat) (x : Nat) :
    Except Error (BindCell ArrData) :=
  match flatIndex b.val.dims subs with
  | some i =>
      if i < b.val.vals.length then
        if b.rw then .ok { b with val := { b.val with vals := b.val.vals.set i x } }
        else .ok b
      else .error (Error.new IE241)
  | none => .error (Error.new IE241)

/-- Modelled from the spec §4.2 `readout`: emit every element as a byte with
the INTERCAL delta encoding — for element `v`, the byte is `(state - v) mod
256` and the new state is `v mod 256`. -/
def readoutGo : List Nat → Nat → List OutEvt × Nat
  | [], s => ([], s)
  | v :: vs, s =>
      let b := (s + 256 - v % 256) % 256
      let (es, s') := readoutGo vs (v % 256)
      (.byte b :: es, s')

/-- Modelled from the spec §4.2 `writein`: for every element read one input
byte (256 at EOF), store `(state - byte) mod 256` and update the state to the
stored value. -/
def writeinGo : List Nat → Nat → List Nat → List Nat × Nat × List Nat
  | [], s, inp => ([], s, inp)
  | _ :: vs, s, inp =>
      let b := inp.headD 256
      let v := (s + 256 - b % 256) % 256
      let (rest, s', inp') := writeinGo vs v inp.tail
      (v :: rest, s', inp')

/-- Modelled from the spec §4.1: `check_ovf(v, _)` asserts `v ≤ 65535`, else
IE275 (the second argument of the source function is unused). -/
def check_ovf (v : Nat) (_x : Nat) : Except Error Nat :=
  if v > 65535 then .error (Error.new IE275) else .ok v

/-- Modelled from the spec §4.3: `stdops::pop_jumps` — strict mode (RESUME)
fails with IE621 on `n = 0` and IE632 when fewer than `n` entries are present;
non-strict mode (FORGET) pops at most the available entries.  Returns the last
entry popped and the remaining stack (head of the list = top of the stack). -/
def pop_jumps (js : List Nat) (n : Nat) (strict : Bool) :
    Except Error (Option Nat × List Nat) :=
  if strict ∧ n = 0 then .error (Error.new IE621)
  else if strict ∧ js.length < n then .error (Error.new IE632)
  else if n = 0 then .ok (none, js)
  else .ok (js.get? (n - 1), js.drop n)

/- ### The evaluator, from `src/eval.rs`. -/

/-- Result of dispatching one statement, `eval.rs::StmtRes` (lines 86-91). -/
inductive StmtRes where
  | Next
  | Jump (n : Nat)
  | Back (n : Nat)
  | End
deriving DecidableEq, Repr

/-- The mutable part of `eval.rs::Eval` (lines 72-84) plus the modelled
external world: `input` is the stream of already-parsed numbers served by the
external primitive `read_number` (spec §1/§6), `inbytes` the byte stream of
`read_byte`, `chances` the oracle stream of boolean draws consumed by
`check_chance` for statements with chance below 100, and `output` the stream
of emitted output events. -/
structure EvalState where
  spot : List (BindCell Nat)
  twospot : List (BindCell Nat)
  tail : List (BindCell ArrData)
  hybrid : List (BindCell ArrData)
  jumps : List Nat
  abstain : List Bool
  last_in : Nat
  last_out : Nat
  stmt_ctr : Nat
  input : List Nat
  inbytes : List Nat
  chances : List Bool
  output : List OutEvt
deriving DecidableEq, Repr

/-- Embeds `util.rs::check_chance` (lines 27-33): chance 100 is always true;
otherwise one draw is consumed from the oracle stream (the source draws from a
process-wide PRNG). -/
def check_chance (c : Nat) (st : EvalState) : Bool × EvalState :=
  if c = 100 then (true, st)
  else (st.chances.headD false, { st with chances := st.chances.tail })

/-- Modelled from the spec (§1/§6): `read_number` is an external primitive;
the input is modelled as a stream of already-parsed numbers, with exhaustion
standing for end of input (IE562, as in `util.rs::read_number`). -/
def read_number (st : EvalState) : Except Error (Nat × EvalState) :=
  match st.input with
  | [] => .error (Error.new IE562)
  | n :: rest => .ok (n, { st with input := rest })

/-- Modelled from the spec §4.3: which `ReadOut`/`WriteIn` operands take the
whole-array path (`ast.rs::Var::is_dim`, not among the sources): an array
variable referenced without subscripts. -/
def Var.is_dim : Var → Bool
  | .A16 _ [] => true
  | .A32 _ [] => true
  | _ => false

mutual

/-- Embeds `Eval::eval_expr` (eval.rs lines 271-309).  The `Rs*` arms are
modelled from the spec §4.3 (the provided `eval.rs` predates them): two-operand
host arithmetic on the 32-bit ring, result re-tagged via `from_u32`. -/
def evalExpr (p : Program) (st : EvalState) : Expr → RRes Val
  | .Num t v =>
      match t with
      | .I16 => .ok (.I16 (v % 65536))
      | .I32 => .ok (.I32 v)
  | .Var v => lookupVar p st v
  | .Mingle vx wx => do
      let v ← evalExpr p st vx
      let w ← evalExpr p st wx
      let v ← liftE (check_ovf v.as_u32 0)
      let w ← liftE (check_ovf w.as_u32 0)
      pure (.I32 (mingle32 v w))
  | .Select _ vx wx => do
      let v ← evalExpr p st vx
      let w ← evalExpr p st wx
      pure (.I32 (select32 v.as_u32 w.as_u32))
  | .And _ vx => do
      match ← evalExpr p st vx with
      | .I16 v => pure (.I16 (and_16 v % 65536))
      | .I32 v => pure (.I32 (and_32 v))
  | .Or _ vx => do
      match ← evalExpr p st vx with
      | .I16 v => pure (.I16 (or_16 v % 65536))
      | .I32 v => pure (.I32 (or_32 v))
  | .Xor _ vx => do
      match ← evalExpr p st vx with
      | .I16 v => pure (.I16 (xor_16 v % 65536))
      | .I32 v => pure (.I32 (xor_32 v))
  | .RsAnd vx wx => do
      let v ← evalExpr p st vx
      let w ← evalExpr p st wx
      pure (Val.from_u32 (v.as_u32 &&& w.as_u32))
  | .RsOr vx wx => do
      let v ← evalExpr p st vx
      let w ← evalExpr p st wx
      pure (Val.from_u32 (v.as_u32 ||| w.as_u32))
  | .RsXor vx wx => do
      let v ← evalExpr p st vx
      let w ← evalExpr p st wx
      pure (Val.from_u32 (v.as_u32 ^^^ w.as_u32))
  | .RsNot vx => do
      let v ← evalExpr p st vx
      pure (Val.from_u32 (v.as_u32 ^^^ 0xFFFFFFFF))
  | .RsRshift vx wx => do
      let v ← evalExpr p st vx
      let w ← evalExpr p st wx
      pure (Val.from_u32 (v.as_u32 >>> w.as_u32))
  | .RsLshift vx wx => do
      let v ← evalExpr p st vx
      let w ← evalExpr p st wx
      pure (Val.from_u32 ((v.as_u32 <<< w.as_u32) % 4294967296))
  | .RsPlus vx wx => do
      let v ← evalExpr p st vx
      let w ← evalExpr p st wx
      pure (Val.from_u32 ((v.as_u32 + w.as_u32) % 4294967296))
  | .RsMinus vx wx => do
      let v ← evalExpr p st vx
      let w ← evalExpr p st wx
      pure (Val.from_u32 ((v.as_u32 + 4294967296 - w.as_u32 % 4294967296) % 4294967296))
  | .RsNotEqual vx wx => do
      let v ← evalExpr p st vx
      let w ← evalExpr p st wx
      pure (Val.from_u32 (if v.as_u32 ≠ w.as_u32 then 1 else 0))

/-- Embeds `Eval::lookup` (eval.rs lines 344-357); out-of-range variable
indexes panic in the source (unchecked vector indexing). -/
def lookupVar (p : Program) (st : EvalState) : Var → RRes Val
  | .I16 n =>
      match st.spot.get? n with
      | some b => .ok (.I16 b.val)
      | none => .panic
  | .I32 n =>
      match st.twospot.get? n with
      | some b => .ok (.I32 b.val)
      | none => .panic
  | .A16 n subs => do
      let ss ← evalSubs p st subs
      match st.tail.get? n with
      | some b => liftE ((b.arr_lookup ss).map .I16)
      | none => .panic
  | .A32 n subs => do
      let ss ← evalSubs p st subs
      match st.hybrid.get? n with
      | some b => liftE ((b.arr_lookup ss).map .I32)
      | none => .panic

/-- Embeds `Eval::eval_subs` (eval.rs lines 311-314): subscripts evaluated in
order as usize. -/
def evalSubs (p : Program) (st : EvalState) : List Expr → RRes (List Nat)
  | [] => .ok []
  | e :: es => do
      let v ← evalExpr p st e
      let vs ← evalSubs p st es
      pure (v.as_usize :: vs)

end

/-- Embeds `Eval::assign` (eval.rs lines 327-341). -/
def assignVar (p : Program) (st : EvalState) (var : Var) (val : Val) :
    RRes EvalState :=
  match var with
  | .I16 n => do
      let v ← liftE val.as_u16
      match st.spot.get? n with
      | some b => pure { st with spot := st.spot.set n (b.assign v) }
      | none => .panic
  | .I32 n =>
      match st.twospot.get? n with
      | some b => .ok { st with twospot := st.twospot.set n (b.assign val.as_u32) }
      | none => .panic
  | .A16 n subs => do
      let ss ← evalSubs p st subs
      let v ← liftE val.as_u16
      match st.tail.get? n with
      | some b => do
          let b' ← liftE (b.arr_assign ss v)
          pure { st with tail := st.tail.set n b' }
      | none => .panic
  | .A32 n subs => do
      let ss ← evalSubs p st subs
      match st.hybrid.get? n with
      | some b => do
          let b' ← liftE (b.arr_assign ss val.as_u32)
          pure { st with hybrid := st.hybrid.set n b' }
      | none => .panic

/-- Embeds `Eval::array_dim` (eval.rs lines 317-324); scalar variables hit
`unimplemented!()` in the source. -/
def arrayDim (p : Program) (st : EvalState) (var : Var) (dims : List Expr) :
    RRes EvalState := do
  let ds ← evalSubs p st dims
  match var with
  | .A16 n _ =>
      match st.tail.get? n with
      | some b => do
          let b' ← liftE (b.dimension ds)
          pure { st with tail := st.tail.set n b' }
      | none => .panic
  | .A32 n _ =>
      match st.hybrid.get? n with
      | some b => do
          let b' ← liftE (b.dimension ds)
          pure { st with hybrid := st.hybrid.set n b' }
      | none => .panic
  | _ => .panic

/-- Embeds `Eval::set_rw` (eval.rs lines 380-387). -/
def setRw (st : EvalState) (var : Var) (rw : Bool) : RRes EvalState :=
  match var with
  | .I16 n =>
      match st.spot.get? n with
      | some b => .ok { st with spot := st.spot.set n { b with rw := rw } }
      | none => .panic
  | .I32 n =>
      match st.twospot.get? n with
      | some b => .ok { st with twospot := st.twospot.set n { b with rw := rw } }
      | none => .panic
  | .A16 n _ =>
      match st.tail.get? n with
      | some b => .ok { st with tail := st.tail.set n { b with rw := rw } }
      | none => .panic
  | .A32 n _ =>
      match st.hybrid.get? n with
      | some b => .ok { st with hybrid := st.hybrid.set n { b with rw := rw } }
      | none => .panic

/-- Embeds `Eval::stash` (eval.rs lines 360-366). -/
def stashVar (st : EvalState) (var : Var) : RRes EvalState :=
  match var with
  | .I16 n =>
      match st.spot.get? n with
      | some b => .ok { st with spot := st.spot.set n b.stash }
      | none => .panic
  | .I32 n =>
      match st.twospot.get? n with
      | some b => .ok { st with twospot := st.twospot.set n b.stash }
      | none => .panic
  | .A16 n _ =>
      match st.tail.get? n with
      | some b => .ok { st with tail := st.tail.set n b.stash }
      | none => .panic
  | .A32 n _ =>
      match st.hybrid.get? n with
      | some b => .ok { st with hybrid := st.hybrid.set n b.stash }
      | none => .panic

/-- Embeds `Eval::retrieve` (eval.rs lines 370-377). -/
def retrieveVar (st : EvalState) (var : Var) : RRes EvalState :=
  match var with
  | .I16 n =>
      match st.spot.get? n with
      | some b => do
          let b' ← liftE b.retrieve
          pure { st with spot := st.spot.set n b' }
      | none => .panic
  | .I32 n =>
      match st.twospot.get? n with
      | some b => do
          let b' ← liftE b.retrieve
          pure { st with twospot := st.twospot.set n b' }
      | none => .panic
  | .A16 n _ =>
      match st.tail.get? n with
      | some b => do
          let b' ← liftE b.retrieve
          pure { st with tail := st.tail.set n b' }
      | none => .panic
  | .A32 n _ =>
      match st.hybrid.get? n with
      | some b => do
          let b' ← liftE b.retrieve
          pure { st with hybrid := st.hybrid.set n b' }
      | none => .panic

/-- Sets every position of `ab` whose entry in `types` equals `what` to `b`,
walking the statement-type table with its index; a matching position beyond
the flag vector is an out-of-bounds write, a panic in the source. -/
def setMatchingVal (what : Abstn) (b : Bool) : Nat → List Abstn → List Bool →
    Option (List Bool)
  | _, [], ab => some ab
  | k, t :: ts, ab =>
      if t = what then
        if k < ab.length then setMatchingVal what b (k + 1) ts (ab.set k b)
        else none
      else setMatchingVal what b (k + 1) ts ab

/-- Embeds `Eval::abstain` (eval.rs lines 390-401): a `Label` target indexes
the label map uncheckedly (`self.program.labels[&lbl]` — a missing label
panics, `none` here), then writes the abstain flag at the mapped index; any
other target flips every statement whose `stmt_types` entry matches. -/
def abstainFn (p : Program) (ab : List Bool) (what : Abstn) (b : Bool) :
    Option (List Bool) :=
  match what with
  | .Label lbl =>
      match p.lookupLabel lbl with
      | some idx => if idx < ab.length then some (ab.set idx b) else none
      | none => none
  | _ => setMatchingVal what b 0 p.stmt_types ab

/-- Folds `setRw` over a variable list (the `for` loops of the Ignore and
Remember arms). -/
def setRwAll (st : EvalState) (vs : List Var) (rw : Bool) : RRes EvalState :=
  match vs with
  | [] => .ok st
  | v :: rest => do
      let st' ← setRw st v rw
      setRwAll st' rest rw

/-- Folds `stashVar` over a variable list. -/
def stashAll (st : EvalState) (vs : List Var) : RRes EvalState :=
  match vs with
  | [] => .ok st
  | v :: rest => do
      let st' ← stashVar st v
      stashAll st' rest

/-- Folds `retrieveVar` over a variable list. -/
def retrieveAll (st : EvalState) (vs : List Var) : RRes EvalState :=
  match vs with
  | [] => .ok st
  | v :: rest => do
      let st' ← retrieveVar st v
      retrieveAll st' rest

/-- Folds `Eval::abstain` over a target list (the `for` loops of the Abstain
and Reinstate arms); a panic in `abstainFn` aborts. -/
def abstainAll (p : Program) (st : EvalState) (ws : List Abstn) (b : Bool) :
    RRes EvalState :=
  match ws with
  | [] => .ok st
  | w :: rest =>
      match abstainFn p st.abstain w b with
      | some ab' => abstainAll p { st with abstain := ab' } rest b
      | none => .panic

/-- Embeds `Eval::array_readout` (eval.rs lines 404-411): delta-encoded byte
output of a whole array, threading `last_out`. -/
def arrayReadout (st : EvalState) (var : Var) : RRes EvalState :=
  match var with
  | .A16 n _ =>
      match st.tail.get? n with
      | some b =>
          let (es, s') := readoutGo b.val.vals st.last_out
          .ok { st with output := st.output ++ es, last_out := s' }
      | none => .panic
  | .A32 n _ =>
      match st.hybrid.get? n with
      | some b =>
          let (es, s') := readoutGo b.val.vals st.last_out
          .ok { st with output := st.output ++ es, last_out := s' }
      | none => .panic
  | _ => .panic

/-- Embeds `Eval::array_writein` (eval.rs lines 414-421): delta-decoded byte
input into a whole array, threading `last_in`. -/
def arrayWritein (st : EvalState) (var : Var) : RRes EvalState :=
  match var with
  | .A16 n _ =>
      match st.tail.get? n with
      | some b =>
          let (vs, s', inp') := writeinGo b.val.vals st.last_in st.inbytes
          .ok { st with tail := st.tail.set n { b with val := { b.val with vals := vs } },
                        last_in := s', inbytes := inp' }
      | none => .panic
  | .A32 n _ =>
      match st.hybrid.get? n with
      | some b =>
          let (vs, s', inp') := writeinGo b.val.vals st.last_in st.inbytes
          .ok { st with hybrid := st.hybrid.set n { b with val := { b.val with vals := vs } },
                        last_in := s', inbytes := inp' }
      | none => .panic
  | _ => .panic

/-- The body of the `for` loop of the ReadOut arm (eval.rs lines 240-254):
whole arrays take the delta readout path, scalar variables and literals are
written as numbers, anything else is `unreachable!()`. -/
def readOutAll (p : Program) (st : EvalState) : List Expr → RRes EvalState
  | [] => .ok st
  | e :: rest => do
      let st' ←
        match e with
        | .Var v =>
            if v.is_dim then arrayReadout st v
            else do
              let val ← lookupVar p st v
              pure { st with output := st.output ++ [.num val.as_u32] }
        | .Num _ v => .ok { st with output := st.output ++ [.num v] }
        | _ => .panic
      readOutAll p st' rest

/-- Embeds `Eval::eval_stmt` (eval.rs lines 167-268), one arm per statement
body.  The `Print` arm is modelled from the spec (§3, §8: emit the captured
output; the provided `eval.rs` predates the `Print` variant). -/
def evalStmt (p : Program) (st : EvalState) (stmt : Stmt) :
    RRes (StmtRes × EvalState) :=
  match stmt.body with
  | .Calc var e => do
      let val ← evalExpr p st e
      let st' ← assignVar p st var val
      pure (.Next, st')
  | .Dim var es => do
      let st' ← arrayDim p st var es
      pure (.Next, st')
  | .DoNext n =>
      let j := st.jumps.length
      match p.lookupLabel n with
      | some i => if j ≥ 80 then .err (Error.new IE123) else .ok (.Jump i, st)
      | none => .err (Error.new IE129)
  | .ComeFrom _ => .ok (.Next, st)
  | .Resume e => do
      let v ← evalExpr p st e
      match liftE (pop_jumps st.jumps v.as_u32 true) with
      | .ok (some next, js) => pure (.Back next, { st with jumps := js })
      | .ok (none, _) => .panic
      | .err e => .err e
      | .panic => .panic
  | .Forget e => do
      let v ← evalExpr p st e
      let (_, js) ← liftE (pop_jumps st.jumps v.as_u32 false)
      pure (.Next, { st with jumps := js })
  | .Ignore vs => do
      let st' ← setRwAll st vs false
      pure (.Next, st')
  | .Remember vs => do
      let st' ← setRwAll st vs true
      pure (.Next, st')
  | .Stash vs => do
      let st' ← stashAll st vs
      pure (.Next, st')
  | .Retrieve vs => do
      let st' ← retrieveAll st vs
      pure (.Next, st')
  | .Abstain _ ws => do
      let st' ← abstainAll p st ws true
      pure (.Next, st')
  | .Reinstate ws => do
      let st' ← abstainAll p st ws false
      pure (.Next, st')
  | .ReadOut es => do
      let st' ← readOutAll p st es
      pure (.Next, st')
  | .WriteIn var =>
      if var.is_dim then do
        let st' ← arrayWritein st var
        pure (.Next, st')
      else do
        let (n, st') ← liftE (read_number st)
        let st'' ← assignVar p st' var (Val.from_u32 n)
        pure (.Next, st'')
  | .Print out => .ok (.Next, { st with output := st.output ++ out })
  | .GiveUp => .ok (.End, st)
  | .Error e => .err e

/-- Outcome of one iteration of the main loop: continue at a program counter,
terminate with the statement count, fail, or abort. -/
inductive StepRes where
  | cont (pc : Nat) (st : EvalState)
  | done (ctr : Nat) (st : EvalState)
  | fail (e : Error)
  | panic
deriving DecidableEq, Repr

/-- Embeds the COME-FROM check at the end of a loop iteration (eval.rs lines
152-161): if the statement at `pc` records a COME-FROM originator and that
originator is not currently abstained, control moves there; otherwise the
program counter advances by one.  (`pc` is always in range when this runs, so
the out-of-range lookup defaulting to "no COME FROM" is never exercised.) -/
def comefromAt (p : Program) (st : EvalState) (pc : Nat) : StepRes :=
  match (p.stmts.get? pc).bind (fun s => s.comefrom) with
  | some next =>
      if st.abstain.getD next false = false then .cont next st
      else .cont (pc + 1) st
  | none => .cont (pc + 1) st

/-- The statement-counter increment at the top of every loop iteration
(eval.rs line 123). -/
def bump (st : EvalState) : EvalState := { st with stmt_ctr := st.stmt_ctr + 1 }

/-- Embeds one iteration of `Eval::eval`'s main loop (eval.rs lines 117-162):
bounds check (IE663, itself a panic on an empty program), statement-counter
increment, abstain and chance gates, statement dispatch with line annotation of
errors, translation of the dispatch result, COME-FROM check.  The jump stack
is a `Vec<u16>` in the source and the Jump arm pushes `pctr as u16` (line
141), so the caller index is truncated modulo 2^16 on the way in. -/
def evalStep (p : Program) (st : EvalState) (pc : Nat) : StepRes :=
  if pc ≥ p.stmts.length then
    match p.stmts.getLast? with
    | none => .panic
    | some last => .fail (Error.mkWith IE663 none last.props.srcline)
  else
    if (bump st).abstain.getD pc false then comefromAt p (bump st) pc
    else
      match p.stmts.get? pc with
      | none => .panic
      | some stmt =>
          match check_chance stmt.props.chance (bump st) with
          | (ok, st2) =>
              if ok then
                match evalStmt p st2 stmt with
                | .panic => .panic
                | .err e => .fail (e.set_line stmt.props.srcline)
                | .ok (res, st3) =>
                    match res with
                    | .Next => comefromAt p st3 pc
                    | .Jump n =>
                        .cont n { st3 with jumps := pc % 65536 :: st3.jumps }
                    | .Back n => comefromAt p st3 n
                    | .End => .done st3.stmt_ctr st3
              else comefromAt p st2 pc

/-- Outcome of a full run: statement count and final state, typed error,
panic, or out of fuel (the source loop may diverge; fuel is the divergence
proxy of the embedding). -/
inductive RunRes where
  | ok (ctr : Nat) (st : EvalState)
  | err (e : Error)
  | panic
  | out
deriving DecidableEq, Repr

/-- Iterates `evalStep` from a program counter, embeds the `loop` of
`Eval::eval`. -/
def evalLoop (p : Program) : Nat → EvalState → Nat → RunRes
  | 0, _, _ => .out
  | fuel + 1, st, pc =>
      match evalStep p st pc with
      | .cont pc' st' => evalLoop p fuel st' pc'
      | .done ctr st' => .ok ctr st'
      | .fail e => .err e
      | .panic => .panic

/-- Embeds `Eval::new` (eval.rs lines 94-110): fresh cells for each variable
class (counts taken from the `var_info` tables), the abstain vector
initialised from the per-statement `disabled` flags, empty jump stack, zeroed
I/O states; the modelled external streams are parameters. -/
def initState (p : Program) (input : List Nat) (inbytes : List Nat)
    (chances : List Bool) : EvalState :=
  { spot := List.replicate p.var_info.1.length (BindCell.new 0)
    twospot := List.replicate p.var_info.2.1.length (BindCell.new 0)
    tail := List.replicate p.var_info.2.2.1.length (BindCell.new ArrData.empty)
    hybrid := List.replicate p.var_info.2.2.2.length (BindCell.new ArrData.empty)
    jumps := []
    abstain := p.stmts.map (fun s => s.props.disabled)
    last_in := 0
    last_out := 0
    stmt_ctr := 0
    input := input
    inbytes := inbytes
    chances := chances
    output := [] }

/-- Embeds `Eval::eval` (eval.rs lines 112-164): run the main loop from
program counter 0 on a fresh state. -/
def runEval (fuel : Nat) (p : Program) (input : List Nat) (inbytes : List Nat)
    (chances : List Bool) : RunRes :=
  evalLoop p fuel (initState p input inbytes chances) 0

/- ### The optimizer, from `src/opt.rs`. -/

/-- Number of trailing zero bits of a `u32` (32 for zero), `u32::trailing_zeros`. -/
def ctz32 (i : Nat) : Nat :=
  ((List.range 32).find? (fun k => i.testBit k)).getD 32

/-- Number of set bits of a `u32`, `u32::count_ones`. -/
def popcount32 (i : Nat) : Nat :=
  ((List.range 32).filter (fun k => i.testBit k)).length

/-- Bit length of a `u32` value (position of the highest set bit plus one). -/
def bitlen32 (i : Nat) : Nat :=
  (List.range 32).foldl (fun acc k => if i.testBit k then k + 1 else acc) 0

/-- Number of leading zero bits of a `u32`, `u32::leading_zeros`. -/
def clz32 (i : Nat) : Nat := 32 - bitlen32 i

/-- Embeds `Optimizer::fold` (opt.rs lines 89-147): bottom-up constant folding
of the five INTERCAL operators; Mingle folds only when both literals fit in 16
bits, And/Or/Xor fold according to the literal's width tag. -/
def fold : Expr → Expr
  | .Mingle vx wx =>
      let vx' := fold vx
      let wx' := fold wx
      match vx', wx' with
      | .Num _ v, .Num _ w =>
          if v ≤ 65535 ∧ w ≤ 65535 then .Num .I32 (mingle32 v w)
          else .Mingle vx' wx'
      | _, _ => .Mingle vx' wx'
  | .Select t vx wx =>
      let vx' := fold vx
      let wx' := fold wx
      match vx', wx' with
      | .Num _ v, .Num _ w => .Num .I32 (select32 v w)
      | _, _ => .Select t vx' wx'
  | .And t vx =>
      let vx' := fold vx
      match vx' with
      | .Num vt v => .Num vt (match vt with | .I16 => and_16 v | .I32 => and_32 v)
      | _ => .And t vx'
  | .Or t vx =>
      let vx' := fold vx
      match vx' with
      | .Num vt v => .Num vt (match vt with | .I16 => or_16 v | .I32 => or_32 v)
      | _ => .Or t vx'
  | .Xor t vx =>
      let vx' := fold vx
      match vx' with
      | .Num vt v => .Num vt (match vt with | .I16 => xor_16 v | .I32 => xor_32 v)
      | _ => .Xor t vx'
  | e => e

/-- Embeds `Optimizer::opt_constant_fold` (opt.rs lines 77-87): folds the
expression carried by Calc, Resume and Forget statements. -/
def opt_constant_fold (p : Program) : Program :=
  { p with stmts := p.stmts.map (fun s =>
      match s.body with
      | .Calc v e => { s with body := .Calc v (fold e) }
      | .Resume e => { s with body := .Resume (fold e) }
      | .Forget e => { s with body := .Forget (fold e) }
      | _ => s) }

/-- Embeds `Optimizer::opt_expr` (opt.rs lines 163-368): the fixed peephole
catalog, applied bottom-up, re-applied to every rewritten node.  The source
re-applies unboundedly (its own comment asks "will this always terminate?");
following the spec's §9 sanity-cap advice, the embedding spends one unit of
fuel per re-application and leaves the node unchanged when fuel runs out. -/
def optExpr : Nat → Expr → Expr
  | 0, e => e
  | fuel + 1, .Select t vx wx =>
      let vx' := optExpr (fuel + 1) vx
      let wx' := optExpr (fuel + 1) wx
      let r : Option Expr :=
        match wx' with
        | .Num _ i =>
            if i = 0x55555555 then
              match vx' with
              | .And _ (.Mingle m1 m2) => some (.RsAnd m1 m2)
              | .Or _ (.Mingle m1 m2) => some (.RsOr m1 m2)
              | .Xor _ (.Mingle m1 m2) => some (.RsXor m1 m2)
              | _ => none
            else if 32 - popcount32 i = clz32 i + ctz32 i then
              if ctz32 i = 0 then some (.RsAnd vx' (.Num .I32 i))
              else if clz32 i = 0 then some (.RsRshift vx' (.Num .I32 (ctz32 i)))
              else some (.RsAnd (.RsRshift vx' (.Num .I32 (ctz32 i)))
                (.Num .I32 ((1 <<< popcount32 i) - 1)))
            else if i = 0x2AAAAAAB then
              match vx' with
              | .Mingle m1 (.Num _ 0) =>
                  some (.RsAnd (.RsLshift m1 (.Num .I32 1)) (.Num .I32 0xFFFF))
              | _ => none
            else none
        | _ => none
      match r with
      | some res => optExpr fuel res
      | none => .Select t vx' wx'
  | fuel + 1, .Mingle vx wx =>
      let vx' := optExpr (fuel + 1) vx
      let wx' := optExpr (fuel + 1) wx
      let r : Option Expr := none
      let r : Option Expr :=
        match vx', wx' with
        | .RsAnd (.Select _ ax (.Num _ 0xAAAAAAAA)) (.Select _ bx (.Num _ 0xAAAAAAAA)),
          .RsAnd (.Select _ cx (.Num _ 0x55555555)) (.Select _ dx (.Num _ 0x55555555)) =>
            if ax.beq cx && bx.beq dx then some (.RsAnd ax bx) else r
        | _, _ => r
      let r : Option Expr :=
        match vx', wx' with
        | .RsOr (.Select _ ax (.Num _ 0xAAAAAAAA)) (.Select _ bx (.Num _ 0xAAAAAAAA)),
          .RsOr (.Select _ cx (.Num _ 0x55555555)) (.Select _ dx (.Num _ 0x55555555)) =>
            if ax.beq cx && bx.beq dx then some (.RsOr ax bx) else r
        | _, _ => r
      let r : Option Expr :=
        match vx', wx' with
        | .RsXor (.Select _ ax (.Num _ 0xAAAAAAAA)) (.Select _ bx (.Num _ 0xAAAAAAAA)),
          .RsXor (.Select _ cx (.Num _ 0x55555555)) (.Select _ dx (.Num _ 0x55555555)) =>
            if ax.beq cx && bx.beq dx then some (.RsXor ax bx) else r
        | _, _ => r
      let r : Option Expr :=
        match vx', wx' with
        | .RsAnd (.Select _ ax (.Num _ 0xAAAAAAAA)) (.Num _ bn),
          .RsAnd (.Select _ cx (.Num _ 0x55555555)) (.Num _ dn) =>
            if ax.beq cx then
              some (.RsAnd ax (.Num .I32 (((bn <<< 16) % 4294967296) ||| dn)))
            else r
        | _, _ => r
      let r : Option Expr :=
        match vx', wx' with
        | .RsOr (.Select _ ax (.Num _ 0xAAAAAAAA)) (.Num _ bn),
          .RsOr (.Select _ cx (.Num _ 0x55555555)) (.Num _ dn) =>
            if ax.beq cx then
              some (.RsOr ax (.Num .I32 (((bn <<< 16) % 4294967296) ||| dn)))
            else r
        | _, _ => r
      let r : Option Expr :=
        match vx', wx' with
        | .RsXor (.Select _ ax (.Num _ 0xAAAAAAAA)) (.Num _ bn),
          .RsXor (.Select _ cx (.Num _ 0x55555555)) (.Num _ dn) =>
            if ax.beq cx then
              some (.RsXor ax (.Num .I32 (((bn <<< 16) % 4294967296) ||| dn)))
            else r
        | _, _ => r
      let r : Option Expr :=
        match vx', wx' with
        | .RsNotEqual _ _, .RsNotEqual _ _ =>
            some (.RsOr (.RsLshift vx' (.Num .I32 1)) wx')
        | _, _ => r
      match r with
      | some res => optExpr fuel res
      | none => .Mingle vx' wx'
  | fuel + 1, .And t vx => .And t (optExpr (fuel + 1) vx)
  | fuel + 1, .Or t vx => .Or t (optExpr (fuel + 1) vx)
  | fuel + 1, .Xor t vx => .Xor t (optExpr (fuel + 1) vx)
  | fuel + 1, .RsNot vx => .RsNot (optExpr (fuel + 1) vx)
  | fuel + 1, .RsAnd vx wx =>
      let vx' := optExpr (fuel + 1) vx
      let wx' := optExpr (fuel + 1) wx
      let r : Option Expr := none
      let r : Option Expr :=
        match vx', wx' with
        | .Select _ sx tx, .Num _ 1 =>
            if sx.beq tx then some (.RsNotEqual sx (.Num .I32 0)) else r
        | _, _ => r
      let r : Option Expr :=
        match vx', wx' with
        | .Xor _ (.Mingle mx (.Num _ 1)), .Num _ 3 =>
            some (.RsPlus (.Num .I32 1) (.RsAnd mx (.Num .I32 1)))
        | _, _ => r
      let r : Option Expr :=
        match vx', wx' with
        | .Xor _ (.Mingle mx (.Num _ 2)), .Num _ 3 =>
            some (.RsMinus (.Num .I32 2) (.RsAnd mx (.Num .I32 1)))
        | _, _ => r
      let r : Option Expr :=
        match wx' with
        | .Num _ 0xFFFFFFFF => some vx'
        | _ => r
      let r : Option Expr :=
        match vx', wx' with
        | .And _ (.Mingle m1 m2), .Num _ 1 =>
            some (.RsAnd (.RsAnd m1 (.Num .I32 1)) (.RsAnd m2 (.Num .I32 1)))
        | .Or _ (.Mingle m1 m2), .Num _ 1 =>
            some (.RsOr (.RsAnd m1 (.Num .I32 1)) (.RsAnd m2 (.Num .I32 1)))
        | .Xor _ (.Mingle m1 m2), .Num _ 1 =>
            some (.RsXor (.RsAnd m1 (.Num .I32 1)) (.RsAnd m2 (.Num .I32 1)))
        | _, _ => r
      let r : Option Expr :=
        match vx' with
        | .RsAnd _ v2x => if v2x.beq wx' then some vx' else r
        | _ => r
      let r : Option Expr :=
        match vx', wx' with
        | .RsNotEqual _ _, .Num _ 1 => some vx'
        | _, _ => r
      match r with
      | some res => optExpr fuel res
      | none => .RsAnd vx' wx'
  | fuel + 1, .RsXor vx wx =>
      let vx' := optExpr (fuel + 1) vx
      let wx' := optExpr (fuel + 1) wx
      let r : Option Expr :=
        match wx' with
        | .Num _ 0xFFFFFFFF => some (.RsNot vx')
        | _ =>
            match vx' with
            | .Num _ 0xFFFFFFFF => some (.RsNot wx')
            | _ => none
      match r with
      | some res => optExpr fuel res
      | none => .RsXor vx' wx'
  | fuel + 1, .RsOr vx wx => .RsOr (optExpr (fuel + 1) vx) (optExpr (fuel + 1) wx)
  | fuel + 1, .RsRshift vx wx =>
      .RsRshift (optExpr (fuel + 1) vx) (optExpr (fuel + 1) wx)
  | fuel + 1, .RsLshift vx wx =>
      .RsLshift (optExpr (fuel + 1) vx) (optExpr (fuel + 1) wx)
  | fuel + 1, .RsNotEqual vx wx =>
      .RsNotEqual (optExpr (fuel + 1) vx) (optExpr (fuel + 1) wx)
  | fuel + 1, .RsPlus vx wx =>
      .RsPlus (optExpr (fuel + 1) vx) (optExpr (fuel + 1) wx)
  | fuel + 1, .RsMinus vx wx =>
      .RsMinus (optExpr (fuel + 1) vx) (optExpr (fuel + 1) wx)
  | _ + 1, .Num t v => .Num t v
  | _ + 1, .Var v => .Var v
termination_by fuel e => (fuel, sizeOf e)

/-- Embeds `Optimizer::opt_expressions` (opt.rs lines 150-161). -/
def opt_expressions (fuel : Nat) (p : Program) : Program :=
  { p with stmts := p.stmts.map (fun s =>
      match s.body with
      | .Calc v e => { s with body := .Calc v (optExpr fuel e) }
      | .Resume e => { s with body := .Resume (optExpr fuel e) }
      | .Forget e => { s with body := .Forget (optExpr fuel e) }
      | _ => s) }

/-- Embeds the qualification loop of `Optimizer::opt_const_output` (opt.rs
lines 373-402): no chance below 100 (except right after the recognised stdlib
entry labels), no WriteIn, no DoNext to the stdlib RNG entries (except on the
1911 continuation path); `prev_lbl` threads the label of the previous
statement. -/
def constQualGo (syslib floatlib : Bool) : List Stmt → Nat → Bool
  | [], _ => true
  | s :: rest, prev_lbl =>
      if s.props.chance < 100 ∧ ¬(syslib ∧ prev_lbl = 1901) ∧
          ¬(floatlib ∧ (prev_lbl = 5401 ∨ prev_lbl = 5402)) then false
      else
        match s.body with
        | .WriteIn _ => false
        | .DoNext n =>
            if (n = 1900 ∨ n = 1910 ∨ n = 5400) ∧ prev_lbl ≠ 1911 then false
            else constQualGo syslib floatlib rest s.props.label
        | _ => constQualGo syslib floatlib rest s.props.label

/-- The qualification predicate of the constant-output pass. -/
def constQual (p : Program) : Bool :=
  constQualGo p.added_syslib p.added_floatlib p.stmts 0

/-- Embeds `Optimizer::opt_const_output` (opt.rs lines 372-424): if the
program qualifies, run the evaluator against an in-memory sink; on success
replace the whole program by `[Print(captured output), GiveUp]` with cleared
labels/types and reset flags, on evaluator error keep the program unchanged.
`none` stands for a run that panics or exceeds the fuel (the source would
abort or diverge). -/
def opt_const_output (fuel : Nat) (p : Program) : Option Program :=
  if ¬ constQual p then some p
  else
    match runEval fuel p [] [] [] with
    | .ok _ st => some
        { stmts := [Stmt.new_with (.Print st.output), Stmt.new_with .GiveUp]
          labels := []
          stmt_types := [.Label 0]
          var_info := ([], [], [], [])
          uses_complex_comefrom := false
          added_syslib := false
          added_floatlib := false
          bugline := 2 }
    | .err _ => some p
    | .panic => none
    | .out => none

/-- The abstain/reinstate target lists carried by a statement body, if any. -/
def bodyTargets : StmtBody → Option (List Abstn)
  | .Abstain _ ws => some ws
  | .Reinstate ws => some ws
  | _ => none

/-- Folds the target-marking of `opt_abstain_check`'s first loop over one
target list; the marking of a single target is the same unchecked-label-index
logic as `Eval::abstain`, with `true` as the written value. -/
def applyWhats (p : Program) : List Abstn → List Bool → Option (List Bool)
  | [], ab => some ab
  | w :: ws, ab => (abstainFn p ab w true).bind (applyWhats p ws)

/-- The first loop of `Optimizer::opt_abstain_check` (opt.rs lines 428-448):
collect `can_abstain` marks from every Abstain/Reinstate statement. -/
def computeCA (p : Program) : List Stmt → List Bool → Option (List Bool)
  | [], ab => some ab
  | s :: ss, ab =>
      match bodyTargets s.body with
      | some ws => (applyWhats p ws ab).bind (computeCA p ss)
      | none => computeCA p ss ab

/-- Embeds `Optimizer::opt_abstain_check` (opt.rs lines 427-455): compute the
mark vector (initially all false), then copy it into every statement except
GiveUp statements, which are left untouched. -/
def opt_abstain_check (p : Program) : Option Program :=
  (computeCA p p.stmts (List.replicate p.stmts.length false)).map (fun ca =>
    { p with stmts := (List.zipWith
        (fun s c => if s.body.isGiveUp then s else { s with can_abstain := c })
        p.stmts ca) })

/-- Updates one entry of a `var_info` table (`none` models the source's
panicking index when the variable number is out of range). -/
def updVI (vis : List VarInfo) (n : Nat) (f : VarInfo → VarInfo) :
    Option (List VarInfo) :=
  match vis.get? n with
  | some vi => some (vis.set n (f vi))
  | none => none

/-- The four `var_info` tables (spot, twospot, tail, hybrid). -/
abbrev VarTables :=
  List VarInfo × List VarInfo × List VarInfo × List VarInfo

/-- Marks one variable in the proper table with `can_stash` or `can_ignore`. -/
def markVar (q : VarTables) (v : Var) (stash : Bool) : Option VarTables :=
  let f : VarInfo → VarInfo := fun vi =>
    if stash then { vi with can_stash := true } else { vi with can_ignore := true }
  match v with
  | .I16 n => (updVI q.1 n f).map (fun l => (l, q.2.1, q.2.2.1, q.2.2.2))
  | .I32 n => (updVI q.2.1 n f).map (fun l => (q.1, l, q.2.2.1, q.2.2.2))
  | .A16 n _ => (updVI q.2.2.1 n f).map (fun l => (q.1, q.2.1, l, q.2.2.2))
  | .A32 n _ => (updVI q.2.2.2 n f).map (fun l => (q.1, q.2.1, q.2.2.1, l))

/-- Folds `markVar` over a variable list. -/
def markVars (q : VarTables) (vs : List Var) (stash : Bool) : Option VarTables :=
  match vs with
  | [] => some q
  | v :: rest => (markVar q v stash).bind (fun q' => markVars q' rest stash)

/-- The statement loop of `Optimizer::opt_var_check` (opt.rs lines 469-495). -/
def varCheckGo (q : VarTables) : List Stmt → Option VarTables
  | [] => some q
  | s :: ss =>
      match s.body with
      | .Stash vs => (markVars q vs true).bind (fun q' => varCheckGo q' ss)
      | .Retrieve vs => (markVars q vs true).bind (fun q' => varCheckGo q' ss)
      | .Ignore vs => (markVars q vs false).bind (fun q' => varCheckGo q' ss)
      | .Remember vs => (markVars q vs false).bind (fun q' => varCheckGo q' ss)
      | _ => varCheckGo q ss

/-- Embeds `Optimizer::opt_var_check` (opt.rs lines 458-497): reset both flags
of every variable, then mark variables mentioned by Stash/Retrieve (can_stash)
and Ignore/Remember (can_ignore). -/
def opt_var_check (p : Program) : Option Program :=
  let reset := fun (vis : List VarInfo) => vis.map (fun _ => (⟨false, false⟩ : VarInfo))
  let q0 : VarTables :=
    (reset p.var_info.1, reset p.var_info.2.1, reset p.var_info.2.2.1,
     reset p.var_info.2.2.2)
  (varCheckGo q0 p.stmts).map (fun q => { p with var_info := q })

/-- Embeds `Optimizer::optimize` (opt.rs lines 63-73): the sequential pass
pipeline; the constant-output pass runs only when enabled. -/
def optimize (fuel : Nat) (allow_const_out : Bool) (p : Program) :
    Option Program :=
  let p1 := opt_constant_fold p
  let p2 := opt_expressions fuel p1
  match (if allow_const_out then opt_const_output fuel p2 else some p2) with
  | none => none
  | some p3 => (opt_abstain_check p3).bind opt_var_check

/- ### Example programs and states used by witness theorems appear here, at
the end of the definitions. -/

/-- Example program for the C10 witness: one Calc-tagged statement whose label
5 maps to index 0. -/
def pC10 : Program :=
  { stmts := [{ body := .GiveUp,
                props := { label := 5, srcline := 1, chance := 100, disabled := false },
                comefrom := none, can_abstain := false }]
    labels := [(5, 0)]
    stmt_types := [.Calc]
    var_info := ([], [], [], [])
    uses_complex_comefrom := false
    added_syslib := false
    added_floatlib := false
    bugline := 0 }

/-- Example program for the C4 and C2 witnesses: a DoNext to label 7, which
marks the final GiveUp. -/
def pC4 : Program :=
  { stmts := [{ body := .DoNext 7,
                props := { label := 0, srcline := 1, chance := 100, disabled := false },
                comefrom := none, can_abstain := false },
              { body := .GiveUp,
                props := { label := 7, srcline := 2, chance := 100, disabled := false },
                comefrom := none, can_abstain := false }]
    labels := [(7, 1)]
    stmt_types := [.DoNext, .TryAgain]
    var_info := ([], [], [], [])
    uses_complex_comefrom := false
    added_syslib := false
    added_floatlib := false
    bugline := 0 }

/-- Example program for the C2 witness: a runtime no-op ComeFrom statement
followed by GiveUp, with no COME-FROM targets recorded. -/
def pC2w : Program :=
  { stmts := [{ body := .ComeFrom 1,
                props := { label := 0, srcline := 1, chance := 100, disabled := false },
                comefrom := none, can_abstain := false },
              { body := .GiveUp,
                props := { label := 0, srcline := 2, chance := 100, disabled := false },
                comefrom := none, can_abstain := false }]
    labels := []
    stmt_types := [.ComeFrom, .TryAgain]
    var_info := ([], [], [], [])
    uses_complex_comefrom := false
    added_syslib := false
    added_floatlib := false
    bugline := 0 }

/-- A single target of an ABSTAIN/REINSTATE statement designates statement
`i` of `p`: a `Label` target designates the statement its label maps to, any
other target designates every statement whose `stmt_types` entry carries that
tag (the marking logic shared by `Eval::abstain` and `opt_abstain_check`). -/
def TargetsIdx (p : Program) (w : Abstn) (i : Nat) : Prop :=
  match w with
  | .Label lbl => p.lookupLabel lbl = some i
  | _ => p.stmt_types[i]? = some w

/-- Some statement of the list carries an Abstain/Reinstate body with a
target designating statement `i` of `p`. -/
def TargetedIn (p : Program) (ss : List Stmt) (i : Nat) : Prop :=
  ∃ s ∈ ss, ∃ ws, bodyTargets s.body = some ws ∧ ∃ w ∈ ws, TargetsIdx p w i

/-- Statement `i` of `p` is targeted by some Abstain/Reinstate statement of
`p`. -/
def Targeted (p : Program) (i : Nat) : Prop := TargetedIn p p.stmts i

/-- Example program for the C3 witness: a single GiveUp statement, which
qualifies for the constant-output pass and halts immediately with no
output. -/
def pC3w : Program :=
  { stmts := [{ body := .GiveUp,
                props := { label := 0, srcline := 1, chance := 100, disabled := false },
                comefrom := none, can_abstain := false }]
    labels := []
    stmt_types := [.TryAgain]
    var_info := ([], [], [], [])
    uses_complex_comefrom := false
    added_syslib := false
    added_floatlib := false
    bugline := 0 }

/-- Example program for the C9 counterexample and witness: one statement and
one stmt-type tag, so the parallel-tags invariant holds on entry. -/
def pC9x : Program :=
  { stmts := [Stmt.new_with .GiveUp]
    labels := []
    stmt_types := [.TryAgain]
    var_info := ([], [], [], [])
    uses_complex_comefrom := false
    added_syslib := false
    added_floatlib := false
    bugline := 0 }

/-- The program the constant-output pass produces from `pC9x`. -/
def qC9r : Program :=
  { stmts := [Stmt.new_with (.Print []), Stmt.new_with .GiveUp]
    labels := []
    stmt_types := [.Label 0]
    var_info := ([], [], [], [])
    uses_complex_comefrom := false
    added_syslib := false
    added_floatlib := false
    bugline := 2 }

/-- C8 counterexample program: a single GiveUp statement whose `can_abstain`
flag is already `true` when the abstain-check pass runs, and no
Abstain/Reinstate statement at all. -/
def pC8x : Program :=
  { stmts := [{ body := .GiveUp,
                props := { label := 0, srcline := 1, chance := 100, disabled := false },
                comefrom := none, can_abstain := true }]
    labels := []
    stmt_types := [.TryAgain]
    var_info := ([], [], [], [])
    uses_complex_comefrom := false
    added_syslib := false
    added_floatlib := false
    bugline := 0 }

/-- Example program for the C8 witness: an ABSTAIN targeting label 9, the
labelled statement it designates, and a final GiveUp. -/
def pC8w : Program :=
  { stmts := [{ body := .Abstain none [.Label 9],
                props := { label := 0, srcline := 1, chance := 100, disabled := false },
                comefrom := none, can_abstain := false },
              { body := .ComeFrom 1,
                props := { label := 9, srcline := 2, chance := 100, disabled := false },
                comefrom := none, can_abstain := false },
              { body := .GiveUp,
                props := { label := 0, srcline := 3, chance := 100, disabled := false },
                comefrom := none, can_abstain := false }]
    labels := [(9, 1)]
    stmt_types := [.Abstain, .ComeFrom, .TryAgain]
    var_info := ([], [], [], [])
    uses_complex_comefrom := false
    added_syslib := false
    added_floatlib := false
    bugline := 0 }

/-- The program the abstain-check pass produces from `pC8w`: the targeted
statement (index 1) gets `can_abstain = true`, the others keep `false`. -/
def qC8w : Program :=
  { pC8w with stmts := [
      { body := .Abstain none [.Label 9],
        props := { label := 0, srcline := 1, chance := 100, disabled := false },
        comefrom := none, can_abstain := false },
      { body := .ComeFrom 1,
        props := { label := 9, srcline := 2, chance := 100, disabled := false },
        comefrom := none, can_abstain := true },
      { body := .GiveUp,
        props := { label := 0, srcline := 3, chance := 100, disabled := false },
        comefrom := none, can_abstain := false }] }

/-- The GiveUp statement of `pC8w` (index 2). -/
def sC8give : Stmt :=
  { body := .GiveUp
    props := { label := 0, srcline := 3, chance := 100, disabled := false }
    comefrom := none
    can_abstain := false }

/-- The labelled statement of `pC8w` (index 1, carrying label 9). -/
def sC8come : Stmt :=
  { body := .ComeFrom 1
    props := { label := 9, srcline := 2, chance := 100, disabled := false }
    comefrom := none
    can_abstain := false }

/- ################################################################### -/
/- ### Theorems.                                                      -/
/- ################################################################### -/

/- #### Bit-level groundwork for MINGLE and SELECT. -/

theorem mod_two_pow_zero_iff (x n : Nat) :
    x % 2 ^ n = 0 ↔ ∀ i, i < n → x.testBit i = false := by
  constructor
  · intro h i hi
    have hb : (x % 2 ^ n).testBit i = x.testBit i := by
      rw [Nat.testBit_mod_two_pow]
      simp [hi]
    rw [h, Nat.zero_testBit] at hb
    exact hb.symm
  · intro h
    apply Nat.eq_of_testBit_eq
    intro i
    rw [Nat.testBit_mod_two_pow, Nat.zero_testBit]
    by_cases hi : i < n
    · simp [h i hi]
    · simp [hi]

theorem testBit_zero_mod_two (m b : Nat) (h : m.testBit 0 = b.testBit 0) :
    m % 2 = b % 2 := by
  simp only [Nat.testBit_zero, decide_eq_decide] at h
  have hm := Nat.mod_two_eq_zero_or_one m
  have hb := Nat.mod_two_eq_zero_or_one b
  omega

theorem two_pow_mod_succ (a n : Nat) :
    a % 2 ^ (n + 1) = 2 * (a / 2 % 2 ^ n) + a % 2 := by
  have h1 : a = 2 ^ (n + 1) * (a / 2 / 2 ^ n) + (2 * (a / 2 % 2 ^ n) + a % 2) := by
    have hd : a / 2 = 2 ^ n * (a / 2 / 2 ^ n) + a / 2 % 2 ^ n :=
      (Nat.div_add_mod _ _).symm
    have ha : a = 2 * (a / 2) + a % 2 := (Nat.div_add_mod a 2).symm
    calc a = 2 * (a / 2) + a % 2 := ha
    _ = 2 * (2 ^ n * (a / 2 / 2 ^ n) + a / 2 % 2 ^ n) + a % 2 := by rw [← hd]
    _ = 2 ^ (n + 1) * (a / 2 / 2 ^ n) + (2 * (a / 2 % 2 ^ n) + a % 2) := by ring
  have h2 : 2 * (a / 2 % 2 ^ n) + a % 2 < 2 ^ (n + 1) := by
    have := Nat.mod_lt (a / 2) (y := 2 ^ n) (Nat.pos_pow_of_pos n (by norm_num))
    have := Nat.mod_lt a (y := 2) (by norm_num)
    rw [pow_succ]
    omega
  calc a % 2 ^ (n + 1)
      = (2 ^ (n + 1) * (a / 2 / 2 ^ n) + (2 * (a / 2 % 2 ^ n) + a % 2)) % 2 ^ (n + 1) := by
        rw [← h1]
    _ = (2 * (a / 2 % 2 ^ n) + a % 2) % 2 ^ (n + 1) := by rw [Nat.mul_add_mod]
    _ = 2 * (a / 2 % 2 ^ n) + a % 2 := Nat.mod_eq_of_lt h2

theorem testBit_and_two_pow_ne (w k : Nat) (h : w &&& 2 ^ k ≠ 0) :
    w.testBit k = true := by
  by_contra htb
  simp only [Bool.not_eq_true] at htb
  rw [Nat.and_two_pow, htb] at h
  simp at h

theorem testBit_and_two_pow_eq (w k : Nat) (h : w &&& 2 ^ k = 0) :
    w.testBit k = false := by
  by_contra htb
  simp only [Bool.not_eq_false] at htb
  rw [Nat.and_two_pow, htb] at h
  simp at h

theorem xor_two_pow_lt (w k : Nat) (h : w.testBit k = true) : w ^^^ 2 ^ k < w := by
  refine Nat.lt_of_testBit k ?_ h ?_
  · rw [Nat.testBit_xor, h, Nat.testBit_two_pow_self]
    rfl
  · intro j hj
    rw [Nat.testBit_xor, Nat.testBit_two_pow_of_ne (Nat.ne_of_lt hj)]
    simp

theorem cursor_eq_two_pow (k : Nat) (hk : k < 32) :
    (1 <<< k) % 4294967296 = 2 ^ k := by
  rw [Nat.shiftLeft_eq, one_mul]
  exact Nat.mod_eq_of_lt (by
    calc (2:Nat) ^ k < 2 ^ 32 := Nat.pow_lt_pow_right (by norm_num) hk
    _ = 4294967296 := by norm_num)

theorem cursor_zero_of_ge (k : Nat) (hk : 32 ≤ k) :
    (1 <<< k) % 4294967296 = 0 := by
  obtain ⟨c, hc⟩ := pow_dvd_pow 2 hk
  rw [Nat.shiftLeft_eq, one_mul, show (4294967296:Nat) = 2 ^ 32 from by norm_num,
    hc, Nat.mul_mod_right]

theorem extract_zero (v : Nat) : extract v 0 = 0 := by
  rw [extract]
  simp

theorem extract_odd (v w : Nat) (hw : w % 2 = 1) :
    extract v w = 2 * extract (v / 2) (w / 2) + v % 2 := by
  rw [extract]
  have : ¬ w = 0 := by omega
  simp [this, hw]

theorem extract_even (v w : Nat) (hw0 : w ≠ 0) (hw : w % 2 = 0) :
    extract v w = extract (v / 2) (w / 2) := by
  rw [extract]
  simp [hw0, hw]


/-- The select loop computes bit extraction: with the invariant that the bits
of `w` below the cursor position `k` are already consumed (zero) and the
accumulator `t` lives below `2^k`, the loop returns `t` plus the extraction of
the remaining bits, shifted into place. -/
theorem selectGo_eq (w : Nat) : ∀ v k t, w < 4294967296 → w % 2 ^ k = 0 →
    t < 2 ^ k → selectGo v w k t = t + 2 ^ k * extract (v >>> k) (w >>> k) := by
  induction w using Nat.strong_induction_on with
  | _ w ih =>
    intro v k t hw32 hwk ht
    by_cases hw : w = 0
    · subst hw
      rw [selectGo]
      simp [Nat.zero_shiftRight, extract_zero]
    · by_cases hk32 : 32 ≤ k
      · exfalso
        have hle : (2:Nat) ^ 32 ≤ 2 ^ k := Nat.pow_le_pow_right (by norm_num) hk32
        have hdvd : 2 ^ k ∣ w := Nat.dvd_of_mod_eq_zero hwk
        exact hw (Nat.eq_zero_of_dvd_of_lt hdvd (by omega))
      · push_neg at hk32
        have hieq := cursor_eq_two_pow k hk32
        have h32 : (4294967296:Nat) = 2 ^ 32 := by norm_num
        by_cases hbit : w &&& 2 ^ k ≠ 0
        · -- hit: consume bit k of w
          have htb : w.testBit k = true := testBit_and_two_pow_ne w k hbit
          have hlt : w ^^^ 2 ^ k < w := xor_two_pow_lt w k htb
          rw [selectGo, dif_neg hw]
          simp only [hieq]
          rw [dif_pos hbit]
          have hrec := ih (w ^^^ 2 ^ k) hlt v (k + 1) (t ||| (v &&& 2 ^ k)) ?_ ?_ ?_
          · rw [hrec]
            have hsh : (w ^^^ 2 ^ k) >>> (k + 1) = w >>> (k + 1) := by
              apply Nat.eq_of_testBit_eq
              intro j
              rw [Nat.testBit_shiftRight, Nat.testBit_shiftRight, Nat.testBit_xor,
                Nat.testBit_two_pow_of_ne (by omega)]
              simp
            have hwodd : (w >>> k) % 2 = 1 := by
              have h1 := htb
              rw [Nat.testBit_to_div_mod] at h1
              simpa [Nat.shiftRight_eq_div_pow] using of_decide_eq_true h1
            have hext : extract (v >>> k) (w >>> k) =
                2 * extract (v >>> (k + 1)) (w >>> (k + 1)) + (v >>> k) % 2 := by
              rw [extract_odd _ _ hwodd, ← Nat.shiftRight_succ, ← Nat.shiftRight_succ]
            have hvb : v &&& 2 ^ k = ((v >>> k) % 2) * 2 ^ k := by
              rw [Nat.and_two_pow, Nat.testBit_to_div_mod]
              rcases Nat.mod_two_eq_zero_or_one (v / 2 ^ k) with h2 | h2 <;>
                simp [Nat.shiftRight_eq_div_pow, h2]
            have hlor : t ||| (v &&& 2 ^ k) = t + 2 ^ k * ((v >>> k) % 2) := by
              rw [hvb]
              rcases Nat.mod_two_eq_zero_or_one (v >>> k) with h2 | h2
              · simp [h2]
              · rw [h2, one_mul]
                have hx := Nat.mul_add_lt_is_or (i := k) ht 1
                rw [mul_one] at hx
                rw [Nat.lor_comm, ← hx, Nat.add_comm, mul_one]
            rw [hsh, hext, hlor]
            ring
          · rw [h32] at hw32 ⊢
            exact Nat.xor_lt_two_pow hw32 (Nat.pow_lt_pow_right (by norm_num) hk32)
          · rw [mod_two_pow_zero_iff]
            intro i hi
            rw [Nat.testBit_xor]
            rcases Nat.lt_or_ge i k with hik | hik
            · have h1 : w.testBit i = false := (mod_two_pow_zero_iff w k).mp hwk i hik
              rw [h1, Nat.testBit_two_pow_of_ne (by omega)]
              rfl
            · have hik' : i = k := by omega
              subst hik'
              rw [htb, Nat.testBit_two_pow_self]
              rfl
          · have h2 : v &&& 2 ^ k < 2 ^ (k + 1) :=
              Nat.and_lt_two_pow v (by rw [pow_succ]; omega)
            exact Nat.or_lt_two_pow (by rw [pow_succ]; omega) h2
        · -- miss: shift both v and w right
          have hbit0 : w &&& 2 ^ k = 0 := by simpa using hbit
          have htb : w.testBit k = false := testBit_and_two_pow_eq w k hbit0
          rw [selectGo, dif_neg hw]
          simp only [hieq]
          rw [dif_neg hbit]
          have hlt : w >>> 1 < w := by
            rw [Nat.shiftRight_one]
            exact Nat.div_lt_self (Nat.pos_of_ne_zero hw) one_lt_two
          have hrec := ih (w >>> 1) hlt (v >>> 1) k t ?_ ?_ ht
          · rw [hrec]
            have hsh1 : (v >>> 1) >>> k = v >>> (k + 1) := by
              rw [← Nat.shiftRight_add, Nat.add_comm]
            have hsh2 : (w >>> 1) >>> k = w >>> (k + 1) := by
              rw [← Nat.shiftRight_add, Nat.add_comm]
            rw [hsh1, hsh2]
            by_cases hwk0 : w >>> k = 0
            · have hwk1 : w >>> (k + 1) = 0 := by
                rw [Nat.shiftRight_succ, hwk0]
              rw [hwk0, hwk1, extract_zero, extract_zero]
            · have hweven : (w >>> k) % 2 = 0 := by
                have h1 := htb
                rw [Nat.testBit_to_div_mod] at h1
                have h2 := of_decide_eq_false h1
                have h3 := Nat.mod_two_eq_zero_or_one (w / 2 ^ k)
                rw [Nat.shiftRight_eq_div_pow]
                omega
              rw [extract_even _ _ hwk0 hweven, Nat.shiftRight_succ, Nat.shiftRight_succ]
          · have hle : w >>> 1 ≤ w := by
              rw [Nat.shiftRight_one]
              exact Nat.div_le_self w 2
            omega
          · rw [mod_two_pow_zero_iff]
            intro i hi
            rw [Nat.testBit_shiftRight]
            rcases Nat.lt_or_ge (1 + i) k with hik | hik
            · exact (mod_two_pow_zero_iff w k).mp hwk (1 + i) hik
            · have hik' : 1 + i = k := by omega
              rw [hik']
              exact htb

/-- The select loop from its initial state is exactly bit extraction. -/
theorem select32_eq_extract (v w : Nat) (hw : w < 4294967296) :
    select32 v w = extract v w := by
  have h := selectGo_eq w v 0 0 hw (by rw [pow_zero, Nat.mod_one]) (by norm_num)
  simpa [select32] using h

theorem maskB_pos (n : Nat) (h : 0 < n) : maskB n ≠ 0 := by
  cases n with
  | zero => omega
  | succ m => simp [maskB]

theorem maskA_val : maskA 16 = 0xAAAAAAAA := by decide

theorem maskB_val : maskB 16 = 0x55555555 := by decide

theorem testBit_div_two (m j : Nat) : (m / 2).testBit j = m.testBit (j + 1) := by
  rw [Nat.testBit_succ]

/-- Extraction with the odd-positions mask recovers the odd-indexed bits: if
the even bits of `m` agree with `b` and the odd bits with `a`, then selecting
with `maskA n` yields the low `n` bits of `a`. -/
theorem extract_maskA (n : Nat) : ∀ m a b : Nat,
    (∀ k, m.testBit (2 * k) = b.testBit k) →
    (∀ k, m.testBit (2 * k + 1) = a.testBit k) →
    extract m (maskA n) = a % 2 ^ n := by
  induction n with
  | zero =>
      intro m a b _ _
      rw [show maskA 0 = 0 from rfl, extract_zero, pow_zero, Nat.mod_one]
  | succ n ihn =>
      intro m a b Hev Hod
      have hBpos : maskB (n + 1) ≠ 0 := maskB_pos _ (by omega)
      have hApos : maskA (n + 1) ≠ 0 := by
        simp only [maskA, ne_eq, Nat.mul_eq_zero]
        push_neg
        exact ⟨by norm_num, hBpos⟩
      have hAeven : maskA (n + 1) % 2 = 0 := by
        simp [maskA, Nat.mul_mod_right]
      have hAdiv : maskA (n + 1) / 2 = maskB (n + 1) := by
        simp [maskA, Nat.mul_div_cancel_left]
      have hBodd : maskB (n + 1) % 2 = 1 := by
        show (4 * maskB n + 1) % 2 = 1
        omega
      have hBdiv : maskB (n + 1) / 2 = maskA n := by
        show (4 * maskB n + 1) / 2 = 2 * maskB n
        omega
      rw [extract_even _ _ hApos hAeven, hAdiv, extract_odd _ _ hBodd, hBdiv]
      have hm4 : m / 2 / 2 = m / 4 := by omega
      have hrec : extract (m / 2 / 2) (maskA n) = (a / 2) % 2 ^ n := by
        apply ihn (m / 2 / 2) (a / 2) (b / 2)
        · intro k
          simp only [testBit_div_two]
          have h := Hev (k + 1)
          rw [show 2 * (k + 1) = 2 * k + 1 + 1 from by ring] at h
          exact h
        · intro k
          simp only [testBit_div_two]
          have h := Hod (k + 1)
          rw [show 2 * (k + 1) + 1 = 2 * k + 1 + 1 + 1 from by ring] at h
          exact h
      rw [hrec]
      have hmod : (m / 2) % 2 = a % 2 := by
        apply testBit_zero_mod_two
        rw [testBit_div_two]
        exact Hod 0
      rw [hmod, two_pow_mod_succ]

/-- Extraction with the even-positions mask recovers the even-indexed bits. -/
theorem extract_maskB (n : Nat) (m a b : Nat)
    (Hev : ∀ k, m.testBit (2 * k) = b.testBit k)
    (Hod : ∀ k, m.testBit (2 * k + 1) = a.testBit k) :
    extract m (maskB n) = b % 2 ^ n := by
  cases n with
  | zero => rw [show maskB 0 = 0 from rfl, extract_zero, pow_zero, Nat.mod_one]
  | succ n =>
      have hBpos : maskB (n + 1) ≠ 0 := maskB_pos _ (by omega)
      have hBodd : maskB (n + 1) % 2 = 1 := by
        show (4 * maskB n + 1) % 2 = 1
        omega
      have hBdiv : maskB (n + 1) / 2 = maskA n := by
        show (4 * maskB n + 1) / 2 = 2 * maskB n
        omega
      rw [extract_odd _ _ hBodd, hBdiv]
      have hrec : extract (m / 2) (maskA n) = (b / 2) % 2 ^ n := by
        apply extract_maskA n (m / 2) (b / 2) a
        · intro k
          simp only [testBit_div_two]
          exact Hod k
        · intro k
          simp only [testBit_div_two]
          have h := Hev (k + 1)
          rw [show 2 * (k + 1) = 2 * k + 1 + 1 from by ring] at h
          exact h
      rw [hrec]
      have hmod : m % 2 = b % 2 := by
        apply testBit_zero_mod_two
        exact Hev 0
      rw [hmod, two_pow_mod_succ]

/- #### Splitting the mingle bit-spreading into bytes. -/

theorem concat_testBit (n a b j : Nat) (hb : b < 2 ^ n) :
    (2 ^ n * a + b).testBit j = if j < n then b.testBit j else a.testBit (j - n) := by
  rw [Nat.mul_add_lt_is_or hb, show 2 ^ n * a = a <<< n from by
    rw [Nat.shiftLeft_eq]; ring, Nat.testBit_lor, Nat.testBit_shiftLeft]
  by_cases hj : j < n
  · have : ¬ j ≥ n := by omega
    simp [this, hj]
  · have hge : j ≥ n := by omega
    have hbf : b.testBit j = false :=
      Nat.testBit_eq_false_of_lt (lt_of_lt_of_le hb (Nat.pow_le_pow_right (by norm_num) hge))
    simp [hge, hbf, hj]

theorem concat_land (n a b c d : Nat) (hb : b < 2 ^ n) (hd : d < 2 ^ n) :
    (2 ^ n * a + b) &&& (2 ^ n * c + d) = 2 ^ n * (a &&& c) + (b &&& d) := by
  have hbd : b &&& d < 2 ^ n := lt_of_le_of_lt Nat.and_le_left hb
  apply Nat.eq_of_testBit_eq
  intro j
  rw [Nat.testBit_land, concat_testBit n a b j hb, concat_testBit n c d j hd,
    concat_testBit n _ _ j hbd]
  by_cases hj : j < n <;> simp [hj, Nat.testBit_land]

theorem concat_lor (n a b c d : Nat) (hb : b < 2 ^ n) (hd : d < 2 ^ n) :
    (2 ^ n * a + b) ||| (2 ^ n * c + d) = 2 ^ n * (a ||| c) + (b ||| d) := by
  have hbd : b ||| d < 2 ^ n := Nat.or_lt_two_pow hb hd
  apply Nat.eq_of_testBit_eq
  intro j
  rw [Nat.testBit_lor, concat_testBit n a b j hb, concat_testBit n c d j hd,
    concat_testBit n _ _ j hbd]
  by_cases hj : j < n <;> simp [hj, Nat.testBit_lor]

theorem concat_shiftLeft (n s a b : Nat) :
    (2 ^ n * a + b) <<< s = 2 ^ n * (a <<< s) + b <<< s := by
  simp only [Nat.shiftLeft_eq]
  ring

/-- One masked-shift-or round of the spreading distributes over a
concatenation of two `n`-bit halves when the mask has identical halves. -/
theorem spread_round (n s M M' a b : Nat) (hb : b < 2 ^ n) (hM : M < 2 ^ n)
    (hM' : M' < 2 ^ n) (hshift : (b &&& M) <<< s < 2 ^ n) :
    (((2 ^ n * a + b) &&& (2 ^ n * M + M)) <<< s) |||
      ((2 ^ n * a + b) &&& (2 ^ n * M' + M')) =
    2 ^ n * (((a &&& M) <<< s) ||| (a &&& M')) + ((b &&& M) <<< s ||| (b &&& M')) := by
  rw [concat_land n a b M M hb hM, concat_shiftLeft,
    concat_land n a b M' M' hb hM',
    concat_lor n _ _ _ _ hshift (lt_of_le_of_lt Nat.and_le_right hM')]

theorem sprRound_split (n s M M' a b : Nat) (hb : b < 2 ^ n) (hM : M < 2 ^ n)
    (hM' : M' < 2 ^ n) (hshift : (b &&& M) <<< s < 2 ^ n) :
    sprRound (2 ^ n * M + M) (2 ^ n * M' + M') s (2 ^ n * a + b) =
      2 ^ n * sprRound M M' s a + sprRound M M' s b := by
  unfold sprRound
  exact spread_round n s M M' a b hb hM hM' hshift

theorem sprRound_bound (n M M' s b : Nat) (h1 : M <<< s < 2 ^ n)
    (h2 : M' < 2 ^ n) : sprRound M M' s b < 2 ^ n := by
  unfold sprRound
  refine Nat.or_lt_two_pow (lt_of_le_of_lt ?_ h1) (lt_of_le_of_lt Nat.and_le_right h2)
  simp only [Nat.shiftLeft_eq]
  exact Nat.mul_le_mul_right _ Nat.and_le_right

/-- The byte split of the first spreading round: the high byte moves to bits
16-23, the low byte stays. -/
theorem spread16_round1 (h l : Nat) (hh : h < 256) (hl : l < 256) :
    sprRound 0x0000ff00 0x000000ff 8 (256 * h + l) = 2 ^ 16 * h + l := by
  unfold sprRound
  have e1 : (256 * h + l) &&& 0x0000ff00 = 2 ^ 8 * h := by
    rw [show (256:Nat) * h + l = 2 ^ 8 * h + l from by norm_num]
    have hc := concat_land 8 h l 0xff 0 (by omega) (by norm_num)
    rw [show (2:Nat) ^ 8 * 0xff + 0 = 0x0000ff00 from by norm_num] at hc
    rw [hc, Nat.and_zero, Nat.add_zero,
      show (0xff:Nat) = 2 ^ 8 - 1 from by norm_num,
      Nat.and_pow_two_sub_one_eq_mod, Nat.mod_eq_of_lt hh]
  have e2 : (256 * h + l) &&& 0x000000ff = l := by
    rw [show (256:Nat) * h + l = 2 ^ 8 * h + l from by norm_num]
    have hc := concat_land 8 h l 0 0xff (by omega) (by norm_num)
    rw [show (2:Nat) ^ 8 * 0 + 0xff = 0x000000ff from by norm_num] at hc
    rw [hc, Nat.and_zero, Nat.mul_zero, Nat.zero_add,
      show (0xff:Nat) = 2 ^ 8 - 1 from by norm_num,
      Nat.and_pow_two_sub_one_eq_mod, Nat.mod_eq_of_lt hl]
  rw [e1, e2]
  have e3 : (2 ^ 8 * h) <<< 8 = 2 ^ 16 * h := by
    rw [Nat.shiftLeft_eq]
    ring
  rw [e3, ← Nat.mul_add_lt_is_or (by omega) h]

/-- Splitting the whole spreading into independent byte halves. -/
theorem spread16_split (h l : Nat) (hh : h < 256) (hl : l < 256) :
    spread16 (256 * h + l) = 2 ^ 16 * gstep h + gstep l := by
  unfold spread16 gstep
  rw [spread16_round1 h l hh hl]
  have hl16 : l < 2 ^ 16 := by omega
  have r4 := sprRound_split 16 4 0x00f0 0x000f h l hl16 (by norm_num) (by norm_num)
    (by
      have : l &&& 0x00f0 ≤ 0x00f0 := Nat.and_le_right
      rw [Nat.shiftLeft_eq]
      calc (l &&& 0x00f0) * 2 ^ 4 ≤ 0x00f0 * 2 ^ 4 := Nat.mul_le_mul_right _ this
      _ < 2 ^ 16 := by norm_num)
  rw [show (2:Nat) ^ 16 * 0x00f0 + 0x00f0 = 0x00f000f0 from by norm_num,
    show (2:Nat) ^ 16 * 0x000f + 0x000f = 0x000f000f from by norm_num] at r4
  rw [r4]
  have hs4 : sprRound 0x00f0 0x000f 4 l < 2 ^ 16 :=
    sprRound_bound 16 _ _ _ _ (by decide) (by norm_num)
  have r2 := sprRound_split 16 2 0x0c0c 0x0303 (sprRound 0x00f0 0x000f 4 h)
    (sprRound 0x00f0 0x000f 4 l) hs4 (by norm_num) (by norm_num)
    (by
      have hx : sprRound 0x00f0 0x000f 4 l &&& 0x0c0c ≤ 0x0c0c := Nat.and_le_right
      rw [Nat.shiftLeft_eq]
      calc (sprRound 0x00f0 0x000f 4 l &&& 0x0c0c) * 2 ^ 2 ≤ 0x0c0c * 2 ^ 2 :=
        Nat.mul_le_mul_right _ hx
      _ < 2 ^ 16 := by norm_num)
  rw [show (2:Nat) ^ 16 * 0x0c0c + 0x0c0c = 0x0c0c0c0c from by norm_num,
    show (2:Nat) ^ 16 * 0x0303 + 0x0303 = 0x03030303 from by norm_num] at r2
  rw [r2]
  have hs2 : sprRound 0x0c0c 0x0303 2 (sprRound 0x00f0 0x000f 4 l) < 2 ^ 16 :=
    sprRound_bound 16 _ _ _ _ (by decide) (by norm_num)
  have r1 := sprRound_split 16 1 0x2222 0x1111
    (sprRound 0x0c0c 0x0303 2 (sprRound 0x00f0 0x000f 4 h))
    (sprRound 0x0c0c 0x0303 2 (sprRound 0x00f0 0x000f 4 l)) hs2 (by norm_num)
    (by norm_num)
    (by
      have hx : sprRound 0x0c0c 0x0303 2 (sprRound 0x00f0 0x000f 4 l) &&& 0x2222 ≤ 0x2222 :=
        Nat.and_le_right
      rw [Nat.shiftLeft_eq]
      calc (sprRound 0x0c0c 0x0303 2 (sprRound 0x00f0 0x000f 4 l) &&& 0x2222) * 2 ^ 1
          ≤ 0x2222 * 2 ^ 1 := Nat.mul_le_mul_right _ hx
      _ < 2 ^ 16 := by norm_num)
  rw [show (2:Nat) ^ 16 * 0x2222 + 0x2222 = 0x22222222 from by norm_num,
    show (2:Nat) ^ 16 * 0x1111 + 0x1111 = 0x11111111 from by norm_num] at r1
  rw [r1]

set_option maxRecDepth 2000 in
/-- Byte-level bit characterisation of the spreading, checked exhaustively
over all 256 byte values: the result stays within the even-bit mask `0x5555`
and its even bits are the input's bits. -/
theorem gstep_char : ∀ b < 256, gstep b ≤ 0x5555 ∧
    ∀ k < 8, (gstep b).testBit (2 * k) = b.testBit k ∧
      (gstep b).testBit (2 * k + 1) = false := by
  decide

/-- Full bit characterisation of the 16-bit spreading. -/
theorem spread16_char (v : Nat) (hv : v < 65536) :
    spread16 v ≤ 0x55555555 ∧
      ∀ k, (spread16 v).testBit (2 * k) = v.testBit k ∧
        (spread16 v).testBit (2 * k + 1) = false := by
  have hsplit := spread16_split (v / 256) (v % 256) (by omega) (Nat.mod_lt v (by norm_num))
  have hv256 : 256 * (v / 256) + v % 256 = v := by omega
  rw [hv256] at hsplit
  obtain ⟨hbh, hbitsh⟩ := gstep_char (v / 256) (by omega)
  obtain ⟨hbl, hbitsl⟩ := gstep_char (v % 256) (Nat.mod_lt v (by norm_num))
  have hlo16 : gstep (v % 256) < 2 ^ 16 := by omega
  have hbound : spread16 v ≤ 0x55555555 := by
    rw [hsplit]
    calc 2 ^ 16 * gstep (v / 256) + gstep (v % 256) ≤ 2 ^ 16 * 0x5555 + 0x5555 := by
          have := Nat.mul_le_mul_left (2 ^ 16) hbh
          omega
    _ = 0x55555555 := by norm_num
  refine ⟨hbound, fun k => ?_⟩
  have htb : ∀ j, (spread16 v).testBit j =
      if j < 16 then (gstep (v % 256)).testBit j
      else (gstep (v / 256)).testBit (j - 16) := by
    intro j
    rw [hsplit, concat_testBit 16 _ _ j hlo16]
  constructor
  · rw [htb (2 * k)]
    by_cases hk : k < 8
    · have h2k : 2 * k < 16 := by omega
      rw [if_pos h2k, (hbitsl k hk).1,
        show (256:Nat) = 2 ^ 8 from by norm_num, Nat.testBit_mod_two_pow]
      simp [hk]
    · by_cases hk16 : k < 16
      · have h1 : ¬ (2 * k < 16) := by omega
        rw [if_neg h1, show 2 * k - 16 = 2 * (k - 8) from by omega,
          (hbitsh (k - 8) (by omega)).1]
        have : v / 256 = v >>> 8 := by rw [Nat.shiftRight_eq_div_pow]
        rw [this, Nat.testBit_shiftRight, show 8 + (k - 8) = k from by omega]
      · have h1 : ¬ (2 * k < 16) := by omega
        rw [if_neg h1]
        have hv' : v.testBit k = false :=
          Nat.testBit_eq_false_of_lt
            (lt_of_lt_of_le (by omega : v < 2 ^ 16)
              (Nat.pow_le_pow_right (by norm_num) (by omega)))
        have hg : (gstep (v / 256)).testBit (2 * k - 16) = false :=
          Nat.testBit_eq_false_of_lt
            (lt_of_le_of_lt hbh
              (lt_of_lt_of_le (by norm_num : (0x5555:Nat) < 2 ^ 16)
                (Nat.pow_le_pow_right (by norm_num) (by omega))))
        rw [hg, hv']
  · rw [htb (2 * k + 1)]
    by_cases hk : k < 8
    · have : 2 * k + 1 < 16 := by omega
      rw [if_pos this, (hbitsl k hk).2]
    · have h1 : ¬ (2 * k + 1 < 16) := by omega
      rw [if_neg h1]
      by_cases hk8 : k < 16
      · rw [show 2 * k + 1 - 16 = 2 * (k - 8) + 1 from by omega,
          (hbitsh (k - 8) (by omega)).2]
      · exact Nat.testBit_eq_false_of_lt
          (lt_of_le_of_lt hbh
            (lt_of_lt_of_le (by norm_num : (0x5555:Nat) < 2 ^ 16)
              (Nat.pow_le_pow_right (by norm_num) (by omega))))

/-- Bit characterisation of the unchecked interleave: even bits come from the
second operand, odd bits from the first. -/
theorem mingle32_char (a b : Nat) (ha : a < 65536) (hb : b < 65536) :
    mingle32 a b < 4294967296 ∧
      ∀ k, (mingle32 a b).testBit (2 * k) = b.testBit k ∧
        (mingle32 a b).testBit (2 * k + 1) = a.testBit k := by
  obtain ⟨hba, hbitsa⟩ := spread16_char a ha
  obtain ⟨hbb, hbitsb⟩ := spread16_char b hb
  have hlta : spread16 a <<< 1 < 2 ^ 32 := by
    rw [Nat.shiftLeft_eq]
    have : spread16 a * 2 ^ 1 ≤ 0x55555555 * 2 := by
      calc spread16 a * 2 ^ 1 ≤ 0x55555555 * 2 ^ 1 := Nat.mul_le_mul_right _ hba
      _ = 0x55555555 * 2 := by norm_num
    calc spread16 a * 2 ^ 1 ≤ 0x55555555 * 2 := this
    _ < 2 ^ 32 := by norm_num
  have hltb : spread16 b < 2 ^ 32 := by
    calc spread16 b ≤ 0x55555555 := hbb
    _ < 2 ^ 32 := by norm_num
  constructor
  · show mingle32 a b < 4294967296
    have := Nat.or_lt_two_pow hlta hltb
    unfold mingle32
    calc (spread16 a <<< 1) ||| spread16 b < 2 ^ 32 := this
    _ = 4294967296 := by norm_num
  · intro k
    have hsh : ∀ j, (spread16 a <<< 1).testBit j =
        if j ≥ 1 then (spread16 a).testBit (j - 1) else false := by
      intro j
      rw [Nat.testBit_shiftLeft]
      by_cases hj : j ≥ 1 <;> simp [hj]
    constructor
    · show (mingle32 a b).testBit (2 * k) = b.testBit k
      unfold mingle32
      rw [Nat.testBit_lor, hsh (2 * k)]
      rcases Nat.eq_zero_or_pos k with hk | hk
      · subst hk
        simp only [Nat.mul_zero]
        rw [if_neg (by omega), Bool.false_or]
        have h0 := (hbitsb 0).1
        simp only [Nat.mul_zero] at h0
        exact h0
      · have h1 : 2 * k ≥ 1 := by omega
        rw [if_pos h1, show 2 * k - 1 = 2 * (k - 1) + 1 from by omega,
          (hbitsa (k - 1)).2, (hbitsb k).1]
        simp
    · show (mingle32 a b).testBit (2 * k + 1) = a.testBit k
      unfold mingle32
      rw [Nat.testBit_lor, hsh (2 * k + 1), if_pos (by omega),
        show 2 * k + 1 - 1 = 2 * k from by omega, (hbitsa k).1, (hbitsb k).2]
      simp

/- #### Claim C1. -/

/-- C1: For every pair of 16-bit values `a` and `b`,
`select(mingle(a,b), 0xAAAA_AAAA)` returns `a` and
`select(mingle(a,b), 0x5555_5555)` returns `b` (mingle succeeds since both
inputs fit in 16 bits). -/
theorem C1_mingle_select_roundtrip (a b : Nat) (ha : a < 65536) (hb : b < 65536) :
    ∃ m, mingle a b = .ok m ∧ select m 0xAAAAAAAA = .ok a ∧
      select m 0x55555555 = .ok b := by
  obtain ⟨hm32, hbits⟩ := mingle32_char a b ha hb
  have Hev : ∀ k, (mingle32 a b).testBit (2 * k) = b.testBit k := fun k => (hbits k).1
  have Hod : ∀ k, (mingle32 a b).testBit (2 * k + 1) = a.testBit k := fun k => (hbits k).2
  refine ⟨mingle32 a b, ?_, ?_, ?_⟩
  · unfold mingle
    rw [if_neg (by omega)]
  · show Except.ok (selectGo (mingle32 a b) 0xAAAAAAAA 0 0) = Except.ok a
    have h1 : selectGo (mingle32 a b) 0xAAAAAAAA 0 0 = select32 (mingle32 a b) 0xAAAAAAAA :=
      rfl
    rw [h1, select32_eq_extract _ _ (by norm_num), ← maskA_val,
      extract_maskA 16 (mingle32 a b) a b Hev Hod, Nat.mod_eq_of_lt (by omega)]
  · show Except.ok (selectGo (mingle32 a b) 0x55555555 0 0) = Except.ok b
    have h1 : selectGo (mingle32 a b) 0x55555555 0 0 = select32 (mingle32 a b) 0x55555555 :=
      rfl
    rw [h1, select32_eq_extract _ _ (by norm_num), ← maskB_val,
      extract_maskB 16 (mingle32 a b) a b Hev Hod, Nat.mod_eq_of_lt (by omega)]

/-- Witness for C1 at `a = 21845`, `b = 43690`. -/
theorem C1_witness : ∃ m, mingle 21845 43690 = .ok m ∧
    select m 0xAAAAAAAA = .ok 21845 ∧ select m 0x55555555 = .ok 43690 :=
  C1_mingle_select_roundtrip 21845 43690 (by norm_num) (by norm_num)

/- #### Claim C5. -/

/-- C5: `mingle(v, w)` fails with IE533 if and only if `v` or `w` exceeds
65535; otherwise it returns the 32-bit value whose bit `2k` equals bit `k` of
`w` and whose bit `2k+1` equals bit `k` of `v`, for every `k` from 0 to 15. -/
theorem C5_mingle_spec (v w : Nat) (hv : v < 4294967296) (hw : w < 4294967296) :
    (mingle v w = .error (Error.new IE533) ↔ (65535 < v ∨ 65535 < w)) ∧
    (∀ r, mingle v w = .ok r → r < 4294967296 ∧
      ∀ k, k < 16 → (r.testBit (2 * k) = w.testBit k ∧
        r.testBit (2 * k + 1) = v.testBit k)) := by
  unfold mingle
  by_cases hc : v > 65535 ∨ w > 65535
  · rw [if_pos hc]
    refine ⟨⟨fun _ => hc, fun _ => rfl⟩, fun r hr => ?_⟩
    exact absurd hr (by simp)
  · rw [if_neg hc]
    push_neg at hc
    constructor
    · constructor
      · intro h
        exact absurd h (by simp)
      · intro h
        omega
    · intro r hr
      have hreq : r = mingle32 v w := by
        injection hr with h
        exact h.symm
      subst hreq
      obtain ⟨h32, hbits⟩ := mingle32_char v w (by omega) (by omega)
      exact ⟨h32, fun k _ => hbits k⟩

/-- Witness for C5: the failure direction at `(70000, 1)` and the success
direction at `(2, 3)` (whose interleave is 13). -/
theorem C5_witness :
    (mingle 70000 1 = .error (Error.new IE533)) ∧
    (mingle 2 3 = .ok 13) ∧ 13 < 4294967296 ∧
    ((13:Nat).testBit 0 = (3:Nat).testBit 0 ∧ (13:Nat).testBit 1 = (2:Nat).testBit 0) := by
  refine ⟨?_, rfl, by norm_num, ?_⟩
  · exact (C5_mingle_spec 70000 1 (by norm_num) (by norm_num)).1.mpr (Or.inl (by norm_num))
  · have h := ((C5_mingle_spec 2 3 (by norm_num) (by norm_num)).2 13 rfl).2 0
      (by norm_num)
    simpa using h

/- #### Claim C6. -/

theorem land_lor_absorb (x y : Nat) : (x &&& y) ||| (x ||| y) = x ||| y := by
  apply Nat.eq_of_testBit_eq
  intro i
  simp only [Nat.testBit_lor, Nat.testBit_land]
  cases x.testBit i <;> cases y.testBit i <;> rfl

theorem land_xor_lor (x y : Nat) : (x &&& y) ^^^ (x ||| y) = x ^^^ y := by
  apply Nat.eq_of_testBit_eq
  intro i
  simp only [Nat.testBit_xor, Nat.testBit_land, Nat.testBit_lor]
  cases x.testBit i <;> cases y.testBit i <;> rfl

theorem rotrw_16 (v : Nat) :
    (if v &&& 1 > 0 then (v >>> 1) ||| 0x8000 else v >>> 1) = rotr1 16 v := by
  unfold rotr1
  rw [Nat.and_one_is_mod]
  rcases Nat.mod_two_eq_zero_or_one v with h2 | h2 <;> rw [h2]
  · simp
  · rw [if_pos (by norm_num), show (1:Nat) <<< 15 = 32768 from by decide]

theorem rotrw_32 (v : Nat) :
    (if v &&& 1 > 0 then (v >>> 1) ||| 0x80000000 else v >>> 1) = rotr1 32 v := by
  unfold rotr1
  rw [Nat.and_one_is_mod]
  rcases Nat.mod_two_eq_zero_or_one v with h2 | h2 <;> rw [h2]
  · simp
  · rw [if_pos (by norm_num), show (1:Nat) <<< 31 = 2147483648 from by decide]

/-- C6: For every W-bit value `v` (W = 16 or 32), `and_W(v)`, `or_W(v)` and
`xor_W(v)` equal respectively the bitwise AND, OR and XOR of `v` with
rotate-right-by-1 of `v` within W bits; consequently every set bit of
`and_W(v)` is also set in `or_W(v)` (stated as `and_W(v) ||| or_W(v) =
or_W(v)`), and `and_W(v) XOR or_W(v)` equals `xor_W(v)`. -/
theorem C6_unary_ops :
    (∀ v, v < 65536 →
      and_16 v = v &&& rotr1 16 v ∧ or_16 v = v ||| rotr1 16 v ∧
      xor_16 v = v ^^^ rotr1 16 v ∧ and_16 v ||| or_16 v = or_16 v ∧
      and_16 v ^^^ or_16 v = xor_16 v) ∧
    (∀ v, v < 4294967296 →
      and_32 v = v &&& rotr1 32 v ∧ or_32 v = v ||| rotr1 32 v ∧
      xor_32 v = v ^^^ rotr1 32 v ∧ and_32 v ||| or_32 v = or_32 v ∧
      and_32 v ^^^ or_32 v = xor_32 v) := by
  constructor
  · intro v _
    simp only [and_16, or_16, xor_16]
    rw [rotrw_16]
    exact ⟨Nat.and_comm _ _, Nat.or_comm _ _, Nat.xor_comm _ _,
      by rw [Nat.and_comm, Nat.or_comm (rotr1 16 v) v, land_lor_absorb],
      by rw [Nat.and_comm, Nat.or_comm (rotr1 16 v) v, land_xor_lor, Nat.xor_comm]⟩
  · intro v _
    simp only [and_32, or_32, xor_32]
    rw [rotrw_32]
    exact ⟨Nat.and_comm _ _, Nat.or_comm _ _, Nat.xor_comm _ _,
      by rw [Nat.and_comm, Nat.or_comm (rotr1 32 v) v, land_lor_absorb],
      by rw [Nat.and_comm, Nat.or_comm (rotr1 32 v) v, land_xor_lor, Nat.xor_comm]⟩

/-- Witness for C6 at `v = 6` (16-bit) and `v = 0x80000001` (32-bit). -/
theorem C6_witness :
    (and_16 6 = 6 &&& rotr1 16 6 ∧ and_16 6 ^^^ or_16 6 = xor_16 6) ∧
    (and_32 0x80000001 = 0x80000001 &&& rotr1 32 0x80000001 ∧
      and_32 0x80000001 ^^^ or_32 0x80000001 = xor_32 0x80000001) := by
  have h16 := C6_unary_ops.1 6 (by norm_num)
  have h32 := C6_unary_ops.2 0x80000001 (by norm_num)
  exact ⟨⟨h16.1, h16.2.2.2.2⟩, ⟨h32.1, h32.2.2.2.2⟩⟩

/- #### Claim C7. -/

/-- Counterexample to C7 as stated: `Val::I32(5)` is a legitimate `Val` (the
evaluator's Select arm always produces `I32`-tagged results, of any
magnitude), yet `from_u32(as_u32(I32 5)) = I16 5 ≠ I32 5` under the derived
equality of `Val`. -/
theorem C7_counterexample : Val.from_u32 ((Val.I32 5).as_u32) ≠ Val.I32 5 := by
  decide

/-- C7 (amended): `from_u32 ∘ as_u32` preserves the numeric value of every
`Val`; it is the identity on narrow values and on wide values exceeding
0xFFFF (a wide value at most 0xFFFF is re-tagged narrow); and `from_u32`
produces the narrow tag if and only if the value is at most 0xFFFF. -/
theorem C7_from_u32_roundtrip :
    (∀ x : Val, (Val.from_u32 x.as_u32).as_u32 = x.as_u32) ∧
    (∀ v : Nat, v < 65536 → Val.from_u32 ((Val.I16 v).as_u32) = .I16 v) ∧
    (∀ v : Nat, 0xFFFF < v → Val.from_u32 ((Val.I32 v).as_u32) = .I32 v) ∧
    (∀ v : Nat, (∃ u, Val.from_u32 v = .I16 u) ↔ v ≤ 0xFFFF) := by
  have hmask : ∀ v : Nat, v &&& 0xFFFF = v % 65536 := by
    intro v
    rw [show (0xFFFF:Nat) = 2 ^ 16 - 1 from by norm_num,
      Nat.and_pow_two_sub_one_eq_mod]
  refine ⟨?_, ?_, ?_, ?_⟩
  · intro x
    unfold Val.from_u32
    split <;> rfl
  · intro v hv
    show Val.from_u32 v = .I16 v
    unfold Val.from_u32
    rw [if_pos (by rw [hmask]; omega)]
  · intro v hv
    show Val.from_u32 v = .I32 v
    unfold Val.from_u32
    rw [if_neg (by
      rw [hmask]
      have := Nat.mod_lt v (y := 65536) (by norm_num)
      omega)]
  · intro v
    constructor
    · rintro ⟨u, hu⟩
      unfold Val.from_u32 at hu
      by_cases hc : v &&& 0xFFFF = v
      · rw [hmask] at hc
        have := Nat.mod_lt v (y := 65536) (by norm_num)
        omega
      · rw [if_neg hc] at hu
        exact absurd hu (by simp)
    · intro hv
      refine ⟨v, ?_⟩
      unfold Val.from_u32
      rw [if_pos (by rw [hmask]; omega)]

/-- Witness for C7 (amended) at `I16 3`, `I32 70000` and value 5. -/
theorem C7_witness :
    (Val.from_u32 ((Val.I16 3).as_u32)).as_u32 = (Val.I16 3).as_u32 ∧
    Val.from_u32 ((Val.I16 3).as_u32) = Val.I16 3 ∧
    Val.from_u32 ((Val.I32 70000).as_u32) = Val.I32 70000 ∧
    ((∃ u, Val.from_u32 5 = Val.I16 u) ↔ (5:Nat) ≤ 0xFFFF) := by
  exact ⟨C7_from_u32_roundtrip.1 (Val.I16 3),
    C7_from_u32_roundtrip.2.1 3 (by norm_num),
    C7_from_u32_roundtrip.2.2.1 70000 (by norm_num),
    C7_from_u32_roundtrip.2.2.2 5⟩

/- #### Claim C10. -/

theorem setMatchingVal_total (what : Abstn) (b : Bool) :
    ∀ (ts : List Abstn) (k : Nat) (ab : List Bool), ts.length + k ≤ ab.length →
      ∃ ab', setMatchingVal what b k ts ab = some ab' ∧ ab'.length = ab.length := by
  intro ts
  induction ts with
  | nil => exact fun k ab _ => ⟨ab, rfl, rfl⟩
  | cons t ts ih =>
      intro k ab hlen
      simp only [setMatchingVal]
      by_cases ht : t = what
      · rw [if_pos ht, if_pos (by simp at hlen; omega)]
        obtain ⟨ab', h1, h2⟩ := ih (k + 1) (ab.set k b)
          (by rw [List.length_set]; simp at hlen; omega)
        exact ⟨ab', h1, by rw [h2, List.length_set]⟩
      · rw [if_neg ht]
        exact ih (k + 1) ab (by simp at hlen; omega)

/-- C10: `Eval::abstain` is total only under the precondition that every
`Abstain::Label` target occurs in the program's labels map: a `Label` target
indexes the map uncheckedly, so a missing label aborts (panics, `none` here)
rather than producing a typed error; under the precondition (together with the
data-model invariants that labels point into the statement list and the
statement-type table parallels the abstain vector) the operation never fails
and only toggles abstain flags. -/
theorem C10_abstain_totality :
    (∀ (p : Program) (ab : List Bool) (lbl : Nat) (b : Bool),
      p.lookupLabel lbl = none → abstainFn p ab (.Label lbl) b = none) ∧
    (∀ (p : Program) (ab : List Bool) (what : Abstn) (b : Bool),
      (∀ lbl, what = .Label lbl → ∃ i, p.lookupLabel lbl = some i ∧ i < ab.length) →
      p.stmt_types.length ≤ ab.length →
      ∃ ab', abstainFn p ab what b = some ab' ∧ ab'.length = ab.length) := by
  constructor
  · intro p ab lbl b hnone
    simp only [abstainFn, hnone]
  · intro p ab what b hlbl hts
    cases what with
    | Label lbl =>
        obtain ⟨i, hsome, hi⟩ := hlbl lbl rfl
        refine ⟨ab.set i b, ?_, List.length_set ab i b⟩
        simp only [abstainFn, hsome]
        rw [if_pos hi]
    | Calc => exact setMatchingVal_total _ b p.stmt_types 0 ab (by omega)
    | Dim => exact setMatchingVal_total _ b p.stmt_types 0 ab (by omega)
    | DoNext => exact setMatchingVal_total _ b p.stmt_types 0 ab (by omega)
    | ComeFrom => exact setMatchingVal_total _ b p.stmt_types 0 ab (by omega)
    | Resume => exact setMatchingVal_total _ b p.stmt_types 0 ab (by omega)
    | Forget => exact setMatchingVal_total _ b p.stmt_types 0 ab (by omega)
    | Ignore => exact setMatchingVal_total _ b p.stmt_types 0 ab (by omega)
    | Remember => exact setMatchingVal_total _ b p.stmt_types 0 ab (by omega)
    | Stash => exact setMatchingVal_total _ b p.stmt_types 0 ab (by omega)
    | Retrieve => exact setMatchingVal_total _ b p.stmt_types 0 ab (by omega)
    | Abstain => exact setMatchingVal_total _ b p.stmt_types 0 ab (by omega)
    | Reinstate => exact setMatchingVal_total _ b p.stmt_types 0 ab (by omega)
    | ReadOut => exact setMatchingVal_total _ b p.stmt_types 0 ab (by omega)
    | WriteIn => exact setMatchingVal_total _ b p.stmt_types 0 ab (by omega)
    | TryAgain => exact setMatchingVal_total _ b p.stmt_types 0 ab (by omega)

/-- Witness for C10: on `pC10`, a missing label panics and a present label
succeeds. -/
theorem C10_witness :
    abstainFn pC10 [false] (.Label 9) true = none ∧
    (∃ ab', abstainFn pC10 [false] (.Label 5) true = some ab' ∧ ab'.length = 1) := by
  constructor
  · exact C10_abstain_totality.1 pC10 [false] 9 true rfl
  · exact C10_abstain_totality.2 pC10 [false] (.Label 5) true
      (fun lbl h => by
        cases h
        exact ⟨0, rfl, by norm_num⟩)
      (by decide)

/- #### Evaluator plumbing lemmas. -/

theorem RRes.bind_def (x : RRes α) (f : α → RRes β) :
    x >>= f = match x with | .ok a => f a | .err e => .err e | .panic => .panic := rfl

theorem RRes.pure_def (a : α) : (pure a : RRes α) = .ok a := rfl

theorem liftE_ok {x : Except Error α} {a : α} (h : liftE x = .ok a) : x = .ok a := by
  cases x with
  | ok b => simp only [liftE] at h; cases h; rfl
  | error e => simp only [liftE] at h; cases h

theorem assignVar_jumps (p : Program) (st : EvalState) (var : Var) (val : Val)
    (st' : EvalState) (h : assignVar p st var val = .ok st') :
    st'.jumps = st.jumps := by
  cases var <;>
    (simp only [assignVar, RRes.bind_def, RRes.pure_def, liftE] at h
     repeat' split at h) <;>
    (try cases h) <;> simp_all

theorem arrayDim_jumps (p : Program) (st : EvalState) (var : Var) (es : List Expr)
    (st' : EvalState) (h : arrayDim p st var es = .ok st') :
    st'.jumps = st.jumps := by
  simp only [arrayDim, RRes.bind_def, RRes.pure_def, liftE] at h
  repeat' split at h
  all_goals (try cases h) <;> simp_all

theorem setRw_jumps (st : EvalState) (var : Var) (rw : Bool) (st' : EvalState)
    (h : setRw st var rw = .ok st') : st'.jumps = st.jumps := by
  cases var <;>
    (simp only [setRw] at h
     repeat' split at h) <;>
    (try cases h) <;> simp_all

theorem stashVar_jumps (st : EvalState) (var : Var) (st' : EvalState)
    (h : stashVar st var = .ok st') : st'.jumps = st.jumps := by
  cases var <;>
    (simp only [stashVar] at h
     repeat' split at h) <;>
    (try cases h) <;> simp_all

theorem retrieveVar_jumps (st : EvalState) (var : Var) (st' : EvalState)
    (h : retrieveVar st var = .ok st') : st'.jumps = st.jumps := by
  cases var <;>
    (simp only [retrieveVar, RRes.bind_def, RRes.pure_def, liftE] at h
     repeat' split at h) <;>
    (try cases h) <;> simp_all

theorem setRwAll_jumps (vs : List Var) : ∀ (st : EvalState) (rw : Bool)
    (st' : EvalState), setRwAll st vs rw = .ok st' → st'.jumps = st.jumps := by
  induction vs with
  | nil =>
      intro st rw st' h
      simp only [setRwAll] at h
      cases h
      rfl
  | cons v rest ih =>
      intro st rw st' h
      simp only [setRwAll, RRes.bind_def] at h
      split at h
      · rename_i st1 h1
        rw [ih st1 _ st' h, setRw_jumps st v _ st1 h1]
      · cases h
      · cases h

theorem stashAll_jumps (vs : List Var) : ∀ (st : EvalState) (st' : EvalState),
    stashAll st vs = .ok st' → st'.jumps = st.jumps := by
  induction vs with
  | nil =>
      intro st st' h
      simp only [stashAll] at h
      cases h
      rfl
  | cons v rest ih =>
      intro st st' h
      simp only [stashAll, RRes.bind_def] at h
      split at h
      · rename_i st1 h1
        rw [ih st1 st' h, stashVar_jumps st v st1 h1]
      · cases h
      · cases h

theorem retrieveAll_jumps (vs : List Var) : ∀ (st : EvalState) (st' : EvalState),
    retrieveAll st vs = .ok st' → st'.jumps = st.jumps := by
  induction vs with
  | nil =>
      intro st st' h
      simp only [retrieveAll] at h
      cases h
      rfl
  | cons v rest ih =>
      intro st st' h
      simp only [retrieveAll, RRes.bind_def] at h
      split at h
      · rename_i st1 h1
        rw [ih st1 st' h, retrieveVar_jumps st v st1 h1]
      · cases h
      · cases h

theorem abstainAll_jumps (p : Program) (ws : List Abstn) : ∀ (st : EvalState)
    (b : Bool) (st' : EvalState), abstainAll p st ws b = .ok st' →
    st'.jumps = st.jumps := by
  induction ws with
  | nil =>
      intro st b st' h
      simp only [abstainAll] at h
      cases h
      rfl
  | cons w rest ih =>
      intro st b st' h
      simp only [abstainAll] at h
      split at h
      · rename_i ab' h1
        rw [ih _ b st' h]
      · cases h

theorem arrayReadout_jumps (st : EvalState) (var : Var) (st' : EvalState)
    (h : arrayReadout st var = .ok st') : st'.jumps = st.jumps := by
  cases var <;>
    (simp only [arrayReadout] at h
     repeat' split at h) <;>
    (try cases h) <;> simp_all

theorem arrayWritein_jumps (st : EvalState) (var : Var) (st' : EvalState)
    (h : arrayWritein st var = .ok st') : st'.jumps = st.jumps := by
  cases var <;>
    (simp only [arrayWritein] at h
     repeat' split at h) <;>
    (try cases h) <;> simp_all

theorem readOutAll_jumps (p : Program) (es : List Expr) : ∀ (st : EvalState)
    (st' : EvalState), readOutAll p st es = .ok st' → st'.jumps = st.jumps := by
  induction es with
  | nil =>
      intro st st' h
      simp only [readOutAll] at h
      cases h
      rfl
  | cons e rest ih =>
      intro st st' h
      simp only [readOutAll, RRes.bind_def, RRes.pure_def] at h
      repeat' split at h
      all_goals (try cases h)
      all_goals rw [ih _ _ h]
      all_goals (rename_i h1; exact arrayReadout_jumps _ _ _ h1)

theorem pop_jumps_length (js : List Nat) (n : Nat) (strict : Bool)
    (r : Option Nat) (js' : List Nat) (h : pop_jumps js n strict = .ok (r, js')) :
    js'.length ≤ js.length := by
  unfold pop_jumps at h
  repeat' split at h
  all_goals (try cases h)
  all_goals simp_all

/-- Dispatching a statement never grows the jump stack, and a `Jump` result
arises only from a `DoNext` whose guard saw fewer than 80 entries, leaving the
stack untouched. -/
theorem evalStmt_jumps (p : Program) (st : EvalState) (stmt : Stmt)
    (res : StmtRes) (st' : EvalState)
    (h : evalStmt p st stmt = .ok (res, st')) :
    st'.jumps.length ≤ st.jumps.length ∧
      (∀ n, res = .Jump n → st'.jumps = st.jumps ∧ st.jumps.length < 80) := by
  cases hb : stmt.body with
  | Calc var e =>
      simp only [evalStmt, hb, RRes.bind_def, RRes.pure_def] at h
      repeat' split at h
      all_goals (try cases h)
      all_goals rename_i h1
      constructor
      · rw [assignVar_jumps _ _ _ _ _ h1]
      · intro n hn
        cases hn
  | Dim var es =>
      simp only [evalStmt, hb, RRes.bind_def, RRes.pure_def] at h
      repeat' split at h
      all_goals (try cases h)
      rename_i h1
      constructor
      · rw [arrayDim_jumps _ _ _ _ _ h1]
      · intro n hn
        cases hn
  | DoNext lbl =>
      simp only [evalStmt, hb] at h
      repeat' split at h
      all_goals (try cases h)
      rename_i hlt hlbl
      refine ⟨Nat.le_refl _, fun n hn => ⟨rfl, by omega⟩⟩
  | ComeFrom lbl =>
      simp only [evalStmt, hb] at h
      cases h
      exact ⟨Nat.le_refl _, fun n hn => by cases hn⟩
  | Resume e =>
      simp only [evalStmt, hb, RRes.bind_def, RRes.pure_def] at h
      repeat' split at h
      all_goals (try cases h)
      rename_i hpop
      have hple := pop_jumps_length st.jumps _ true _ _ (liftE_ok hpop)
      exact ⟨by simpa using hple, fun n hn => by cases hn⟩
  | Forget e =>
      simp only [evalStmt, hb, RRes.bind_def, RRes.pure_def] at h
      repeat' split at h
      all_goals (try cases h)
      rename_i hpop
      have hple := pop_jumps_length st.jumps _ false _ _ (liftE_ok hpop)
      exact ⟨by simpa using hple, fun n hn => by cases hn⟩
  | Ignore vs =>
      simp only [evalStmt, hb, RRes.bind_def, RRes.pure_def] at h
      repeat' split at h
      all_goals (try cases h)
      rename_i h1
      exact ⟨by rw [setRwAll_jumps vs _ _ _ h1], fun n hn => by cases hn⟩
  | Remember vs =>
      simp only [evalStmt, hb, RRes.bind_def, RRes.pure_def] at h
      repeat' split at h
      all_goals (try cases h)
      rename_i h1
      exact ⟨by rw [setRwAll_jumps vs _ _ _ h1], fun n hn => by cases hn⟩
  | Stash vs =>
      simp only [evalStmt, hb, RRes.bind_def, RRes.pure_def] at h
      repeat' split at h
      all_goals (try cases h)
      rename_i h1
      exact ⟨by rw [stashAll_jumps vs _ _ h1], fun n hn => by cases hn⟩
  | Retrieve vs =>
      simp only [evalStmt, hb, RRes.bind_def, RRes.pure_def] at h
      repeat' split at h
      all_goals (try cases h)
      rename_i h1
      exact ⟨by rw [retrieveAll_jumps vs _ _ h1], fun n hn => by cases hn⟩
  | Abstain cnt ws =>
      simp only [evalStmt, hb, RRes.bind_def, RRes.pure_def] at h
      repeat' split at h
      all_goals (try cases h)
      rename_i h1
      exact ⟨by rw [abstainAll_jumps p ws _ _ _ h1], fun n hn => by cases hn⟩
  | Reinstate ws =>
      simp only [evalStmt, hb, RRes.bind_def, RRes.pure_def] at h
      repeat' split at h
      all_goals (try cases h)
      rename_i h1
      exact ⟨by rw [abstainAll_jumps p ws _ _ _ h1], fun n hn => by cases hn⟩
  | ReadOut es =>
      simp only [evalStmt, hb, RRes.bind_def, RRes.pure_def] at h
      repeat' split at h
      all_goals (try cases h)
      rename_i h1
      exact ⟨by rw [readOutAll_jumps p es _ _ h1], fun n hn => by cases hn⟩
  | WriteIn var =>
      simp only [evalStmt, hb, RRes.bind_def, RRes.pure_def] at h
      split at h
      · repeat' split at h
        all_goals (try cases h)
        rename_i h1
        exact ⟨by rw [arrayWritein_jumps _ _ _ h1], fun n hn => by cases hn⟩
      · cases hrd : read_number st with
        | error e =>
            rw [hrd] at h
            simp only [liftE] at h
            cases h
        | ok pr =>
            obtain ⟨m, st1⟩ := pr
            rw [hrd] at h
            simp only [liftE] at h
            cases ha : assignVar p st1 var (Val.from_u32 m) with
            | ok st2 =>
                rw [ha] at h
                cases h
                have hj := assignVar_jumps _ _ _ _ _ ha
                have hst1 : st1.jumps = st.jumps := by
                  unfold read_number at hrd
                  cases hin : st.input with
                  | nil => rw [hin] at hrd; cases hrd
                  | cons a rest => rw [hin] at hrd; cases hrd; rfl
                exact ⟨by rw [hj, hst1], fun n hn => by cases hn⟩
            | err e =>
                rw [ha] at h
                cases h
            | panic =>
                rw [ha] at h
                cases h
  | Print out =>
      simp only [evalStmt, hb] at h
      cases h
      exact ⟨Nat.le_refl _, fun n hn => by cases hn⟩
  | GiveUp =>
      simp only [evalStmt, hb] at h
      cases h
      exact ⟨Nat.le_refl _, fun n hn => by cases hn⟩
  | Error e =>
      simp only [evalStmt, hb] at h
      cases h

theorem comefromAt_state (p : Program) (st : EvalState) (pc : Nat) :
    ∃ q, comefromAt p st pc = .cont q st := by
  unfold comefromAt
  repeat' split
  all_goals exact ⟨_, rfl⟩

theorem check_chance_snd (c : Nat) (st : EvalState) :
    (check_chance c st).2.jumps = st.jumps ∧
    (check_chance c st).2.abstain = st.abstain ∧
    (check_chance c st).2.stmt_ctr = st.stmt_ctr := by
  unfold check_chance
  split <;> exact ⟨rfl, rfl, rfl⟩

/-- One step of the main loop keeps the jump stack within depth 80. -/
theorem evalStep_jumps_bound (p : Program) (st : EvalState) (pc pc' : Nat)
    (st' : EvalState) (hb : st.jumps.length ≤ 80)
    (h : evalStep p st pc = .cont pc' st') : st'.jumps.length ≤ 80 := by
  unfold evalStep at h
  split at h
  · split at h <;> cases h
  · split at h
    · -- abstained statement: only the COME-FROM check runs
      obtain ⟨q, hq⟩ := comefromAt_state p (bump st) pc
      rw [hq] at h
      cases h
      exact hb
    · split at h
      · cases h
      · rename_i stmt hstmt
        split at h
        rename_i ok1 st2 hcc
        have hj2 : st2.jumps = st.jumps := by
          have hx := (check_chance_snd stmt.props.chance (bump st)).1
          rw [hcc] at hx
          exact hx
        have hlen2 : st2.jumps.length = st.jumps.length := by rw [hj2]
        split at h
        · -- chance passed: dispatch
          split at h
          · cases h
          · cases h
          · rename_i res st3 heval
            obtain ⟨hle, hjump⟩ := evalStmt_jumps p st2 stmt res st3 heval
            split at h
            · -- Next
              obtain ⟨q, hq⟩ := comefromAt_state p st3 pc
              rw [hq] at h
              cases h
              omega
            · -- Jump
              rename_i n
              obtain ⟨hjeq, hjlt⟩ := hjump n rfl
              cases h
              simp only [List.length_cons]
              rw [hjeq, hj2]
              omega
            · -- Back
              rename_i n
              obtain ⟨q, hq⟩ := comefromAt_state p st3 n
              rw [hq] at h
              cases h
              omega
            · cases h
        · -- chance failed: only the COME-FROM check runs
          obtain ⟨q, hq⟩ := comefromAt_state p st2 pc
          rw [hq] at h
          cases h
          omega

/-- A terminating step also keeps the jump stack within depth 80. -/
theorem evalStep_done_jumps_bound (p : Program) (st : EvalState) (pc ctr : Nat)
    (st' : EvalState) (hb : st.jumps.length ≤ 80)
    (h : evalStep p st pc = .done ctr st') : st'.jumps.length ≤ 80 := by
  unfold evalStep at h
  split at h
  · split at h <;> cases h
  · split at h
    · obtain ⟨q, hq⟩ := comefromAt_state p (bump st) pc
      rw [hq] at h
      cases h
    · split at h
      · cases h
      · rename_i stmt hstmt
        split at h
        rename_i ok1 st2 hcc
        have hj2 : st2.jumps = st.jumps := by
          have hx := (check_chance_snd stmt.props.chance (bump st)).1
          rw [hcc] at hx
          exact hx
        have hlen2 : st2.jumps.length = st.jumps.length := by rw [hj2]
        split at h
        · split at h
          · cases h
          · cases h
          · rename_i res st3 heval
            obtain ⟨hle, hju⟩ := evalStmt_jumps p st2 stmt res st3 heval
            split at h
            · obtain ⟨q, hq⟩ := comefromAt_state p st3 pc
              rw [hq] at h
              cases h
            · cases h
            · rename_i n
              obtain ⟨q, hq⟩ := comefromAt_state p st3 n
              rw [hq] at h
              cases h
            · cases h
              omega
        · obtain ⟨q, hq⟩ := comefromAt_state p st2 pc
          rw [hq] at h
          cases h

/-- A successful full run keeps the jump stack within depth 80. -/
theorem evalLoop_jumps_bound (p : Program) : ∀ (fuel : Nat) (st : EvalState)
    (pc n : Nat) (st' : EvalState), st.jumps.length ≤ 80 →
    evalLoop p fuel st pc = .ok n st' → st'.jumps.length ≤ 80 := by
  intro fuel
  induction fuel with
  | zero =>
      intro st pc n st' hb h
      simp only [evalLoop] at h
      cases h
  | succ f ih =>
      intro st pc n st' hb h
      simp only [evalLoop] at h
      split at h
      · rename_i pc1 st1 hstep
        exact ih st1 pc1 n st' (evalStep_jumps_bound p st pc pc1 st1 hb hstep) h
      · rename_i ctr st1 hstep
        cases h
        exact evalStep_done_jumps_bound p st pc _ _ hb hstep
      · cases h
      · cases h

/- #### Claim C4. -/

/-- C4: For a DoNext(label) statement: a label absent from the labels map
fails with IE129; a present label with the NEXT stack already at 80 or more
entries fails with IE123; otherwise control jumps to the labelled statement
and the DoNext's own index is pushed onto the NEXT stack (truncated modulo
2^16, as the source pushes `pctr as u16`; for programs of at most 65536
statements the pushed value is the index itself) — so the stack depth never
exceeds 80 (both per step and over a whole successful run). -/
theorem C4_donext_spec :
    (∀ (p : Program) (st : EvalState) (stmt : Stmt) (n : Nat),
      stmt.body = .DoNext n → p.lookupLabel n = none →
      evalStmt p st stmt = .err (Error.new IE129)) ∧
    (∀ (p : Program) (st : EvalState) (stmt : Stmt) (n i : Nat),
      stmt.body = .DoNext n → p.lookupLabel n = some i → 80 ≤ st.jumps.length →
      evalStmt p st stmt = .err (Error.new IE123)) ∧
    (∀ (p : Program) (st : EvalState) (stmt : Stmt) (n i : Nat),
      stmt.body = .DoNext n → p.lookupLabel n = some i → st.jumps.length < 80 →
      evalStmt p st stmt = .ok (.Jump i, st)) ∧
    (∀ (p : Program) (st st2 : EvalState) (pc : Nat) (stmt : Stmt) (n i : Nat),
      pc < p.stmts.length → p.stmts.get? pc = some stmt →
      (bump st).abstain.getD pc false = false → stmt.body = .DoNext n →
      check_chance stmt.props.chance (bump st) = (true, st2) →
      p.lookupLabel n = some i → st2.jumps.length < 80 →
      evalStep p st pc =
        .cont i { st2 with jumps := pc % 65536 :: st2.jumps } ∧
      (p.stmts.length ≤ 65536 →
        evalStep p st pc = .cont i { st2 with jumps := pc :: st2.jumps })) ∧
    (∀ (p : Program) (st : EvalState) (pc pc' : Nat) (st' : EvalState),
      st.jumps.length ≤ 80 → evalStep p st pc = .cont pc' st' →
      st'.jumps.length ≤ 80) ∧
    (∀ (p : Program) (fuel : Nat) (st : EvalState) (pc n : Nat) (st' : EvalState),
      st.jumps.length ≤ 80 → evalLoop p fuel st pc = .ok n st' →
      st'.jumps.length ≤ 80) := by
  refine ⟨?_, ?_, ?_, ?_, evalStep_jumps_bound, evalLoop_jumps_bound⟩
  · intro p st stmt n hbody hlbl
    simp only [evalStmt, hbody, hlbl]
  · intro p st stmt n i hbody hlbl hlen
    simp only [evalStmt, hbody, hlbl]
    rw [if_pos (by omega)]
  · intro p st stmt n i hbody hlbl hlen
    simp only [evalStmt, hbody, hlbl]
    rw [if_neg (by omega)]
  · intro p st st2 pc stmt n i hpc hget habst hbody hcc hlbl hlen
    have hstep : evalStep p st pc =
        .cont i { st2 with jumps := pc % 65536 :: st2.jumps } := by
      unfold evalStep
      rw [if_neg (by omega), habst]
      simp only [Bool.false_eq_true, if_false, hget, hcc]
      simp only [if_true]
      have hstmt : evalStmt p st2 stmt = .ok (.Jump i, st2) := by
        simp only [evalStmt, hbody, hlbl]
        rw [if_neg (by omega)]
      rw [hstmt]
    refine ⟨hstep, fun hbound => ?_⟩
    rw [hstep, Nat.mod_eq_of_lt (by omega)]

theorem comefromAt_spec (p : Program) (st : EvalState) (pc : Nat) :
    (∀ nx, (p.stmts.get? pc).bind (fun s => s.comefrom) = some nx →
      (st.abstain.getD nx false = false → comefromAt p st pc = .cont nx st) ∧
      (st.abstain.getD nx false = true → comefromAt p st pc = .cont (pc + 1) st)) ∧
    ((p.stmts.get? pc).bind (fun s => s.comefrom) = none →
      comefromAt p st pc = .cont (pc + 1) st) := by
  constructor
  · intro nx hnx
    constructor
    · intro hlive
      unfold comefromAt
      rw [hnx]
      exact if_pos hlive
    · intro hdead
      unfold comefromAt
      rw [hnx]
      exact if_neg (by rw [hdead]; simp)
  · intro hnone
    unfold comefromAt
    rw [hnone]

/-- Reduction of a step on an abstained statement. -/
theorem evalStep_abstained (p : Program) (st : EvalState) (pc : Nat)
    (hpc : pc < p.stmts.length) (habst : (bump st).abstain.getD pc false = true) :
    evalStep p st pc = comefromAt p (bump st) pc := by
  unfold evalStep
  rw [if_neg (by omega), if_pos habst]

/-- Reduction of a step whose chance roll fails. -/
theorem evalStep_chance_skip (p : Program) (st st2 : EvalState) (pc : Nat)
    (stmt : Stmt) (hpc : pc < p.stmts.length)
    (hget : p.stmts.get? pc = some stmt)
    (habst : (bump st).abstain.getD pc false = false)
    (hcc : check_chance stmt.props.chance (bump st) = (false, st2)) :
    evalStep p st pc = comefromAt p st2 pc := by
  unfold evalStep
  rw [if_neg (by omega), habst]
  simp only [Bool.false_eq_true, if_false, hget, hcc]

/-- Reduction of a step that dispatches its statement. -/
theorem evalStep_dispatch (p : Program) (st st2 : EvalState) (pc : Nat)
    (stmt : Stmt) (res : StmtRes) (st' : EvalState)
    (hpc : pc < p.stmts.length) (hget : p.stmts.get? pc = some stmt)
    (habst : (bump st).abstain.getD pc false = false)
    (hcc : check_chance stmt.props.chance (bump st) = (true, st2))
    (heval : evalStmt p st2 stmt = .ok (res, st')) :
    evalStep p st pc =
      match res with
      | .Next => comefromAt p st' pc
      | .Jump n => .cont n { st' with jumps := pc % 65536 :: st'.jumps }
      | .Back n => comefromAt p st' n
      | .End => .done st'.stmt_ctr st' := by
  unfold evalStep
  rw [if_neg (by omega), habst]
  simp only [Bool.false_eq_true, if_false, hget, hcc, if_true, heval]
  cases res <;> rfl

/- #### Claim C2. -/

/-- C2: In the evaluator main loop, a dispatch result `Jump(target)` pushes
the current statement index onto the NEXT stack (truncated modulo 2^16, since
the source pushes `pctr as u16` into a `Vec<u16>`; for programs of at most
65536 statements the pushed value is the index itself), sets the program
counter to the target and skips the COME-FROM check for that step; for every
other step outcome (Next, Back, abstained statement, chance-skipped
statement), if the statement at the possibly updated program counter records
a COME-FROM originator that is not currently abstained, the program counter
becomes that originator's index, and otherwise it is incremented by one. -/
theorem C2_loop_step_translation :
    (∀ (p : Program) (st st2 st' : EvalState) (pc n : Nat) (stmt : Stmt),
      pc < p.stmts.length → p.stmts.get? pc = some stmt →
      (bump st).abstain.getD pc false = false →
      check_chance stmt.props.chance (bump st) = (true, st2) →
      evalStmt p st2 stmt = .ok (.Jump n, st') →
      evalStep p st pc =
        .cont n { st' with jumps := pc % 65536 :: st'.jumps } ∧
      (p.stmts.length ≤ 65536 →
        evalStep p st pc = .cont n { st' with jumps := pc :: st'.jumps })) ∧
    (∀ (p : Program) (st st2 st' : EvalState) (pc nx : Nat) (stmt : Stmt),
      pc < p.stmts.length → p.stmts.get? pc = some stmt →
      (bump st).abstain.getD pc false = false →
      check_chance stmt.props.chance (bump st) = (true, st2) →
      evalStmt p st2 stmt = .ok (.Next, st') →
      (p.stmts.get? pc).bind (fun s => s.comefrom) = some nx →
      st'.abstain.getD nx false = false →
      evalStep p st pc = .cont nx st') ∧
    (∀ (p : Program) (st st2 st' : EvalState) (pc : Nat) (stmt : Stmt),
      pc < p.stmts.length → p.stmts.get? pc = some stmt →
      (bump st).abstain.getD pc false = false →
      check_chance stmt.props.chance (bump st) = (true, st2) →
      evalStmt p st2 stmt = .ok (.Next, st') →
      ((p.stmts.get? pc).bind (fun s => s.comefrom) = none ∨
        ∃ nx, (p.stmts.get? pc).bind (fun s => s.comefrom) = some nx ∧
          st'.abstain.getD nx false = true) →
      evalStep p st pc = .cont (pc + 1) st') ∧
    (∀ (p : Program) (st st2 st' : EvalState) (pc m nx : Nat) (stmt : Stmt),
      pc < p.stmts.length → p.stmts.get? pc = some stmt →
      (bump st).abstain.getD pc false = false →
      check_chance stmt.props.chance (bump st) = (true, st2) →
      evalStmt p st2 stmt = .ok (.Back m, st') →
      (p.stmts.get? m).bind (fun s => s.comefrom) = some nx →
      st'.abstain.getD nx false = false →
      evalStep p st pc = .cont nx st') ∧
    (∀ (p : Program) (st st2 st' : EvalState) (pc m : Nat) (stmt : Stmt),
      pc < p.stmts.length → p.stmts.get? pc = some stmt →
      (bump st).abstain.getD pc false = false →
      check_chance stmt.props.chance (bump st) = (true, st2) →
      evalStmt p st2 stmt = .ok (.Back m, st') →
      ((p.stmts.get? m).bind (fun s => s.comefrom) = none ∨
        ∃ nx, (p.stmts.get? m).bind (fun s => s.comefrom) = some nx ∧
          st'.abstain.getD nx false = true) →
      evalStep p st pc = .cont (m + 1) st') ∧
    (∀ (p : Program) (st : EvalState) (pc nx : Nat),
      pc < p.stmts.length →
      (bump st).abstain.getD pc false = true →
      (p.stmts.get? pc).bind (fun s => s.comefrom) = some nx →
      (bump st).abstain.getD nx false = false →
      evalStep p st pc = .cont nx (bump st)) ∧
    (∀ (p : Program) (st : EvalState) (pc : Nat),
      pc < p.stmts.length →
      (bump st).abstain.getD pc false = true →
      ((p.stmts.get? pc).bind (fun s => s.comefrom) = none ∨
        ∃ nx, (p.stmts.get? pc).bind (fun s => s.comefrom) = some nx ∧
          (bump st).abstain.getD nx false = true) →
      evalStep p st pc = .cont (pc + 1) (bump st)) ∧
    (∀ (p : Program) (st st2 : EvalState) (pc nx : Nat) (stmt : Stmt),
      pc < p.stmts.length → p.stmts.get? pc = some stmt →
      (bump st).abstain.getD pc false = false →
      check_chance stmt.props.chance (bump st) = (false, st2) →
      (p.stmts.get? pc).bind (fun s => s.comefrom) = some nx →
      st2.abstain.getD nx false = false →
      evalStep p st pc = .cont nx st2) ∧
    (∀ (p : Program) (st st2 : EvalState) (pc : Nat) (stmt : Stmt),
      pc < p.stmts.length → p.stmts.get? pc = some stmt →
      (bump st).abstain.getD pc false = false →
      check_chance stmt.props.chance (bump st) = (false, st2) →
      ((p.stmts.get? pc).bind (fun s => s.comefrom) = none ∨
        ∃ nx, (p.stmts.get? pc).bind (fun s => s.comefrom) = some nx ∧
          st2.abstain.getD nx false = true) →
      evalStep p st pc = .cont (pc + 1) st2) := by
  refine ⟨?_, ?_, ?_, ?_, ?_, ?_, ?_, ?_, ?_⟩
  · intro p st st2 st' pc n stmt hpc hget habst hcc heval
    constructor
    · rw [evalStep_dispatch p st st2 pc stmt (.Jump n) st' hpc hget habst hcc
        heval]
    · intro hbound
      rw [evalStep_dispatch p st st2 pc stmt (.Jump n) st' hpc hget habst hcc
        heval, Nat.mod_eq_of_lt (by omega)]
  · intro p st st2 st' pc nx stmt hpc hget habst hcc heval hnx hlive
    rw [evalStep_dispatch p st st2 pc stmt .Next st' hpc hget habst hcc heval]
    exact ((comefromAt_spec p st' pc).1 nx hnx).1 hlive
  · intro p st st2 st' pc stmt hpc hget habst hcc heval hdead
    rw [evalStep_dispatch p st st2 pc stmt .Next st' hpc hget habst hcc heval]
    rcases hdead with hnone | ⟨nx, hnx, habs⟩
    · exact (comefromAt_spec p st' pc).2 hnone
    · exact ((comefromAt_spec p st' pc).1 nx hnx).2 habs
  · intro p st st2 st' pc m nx stmt hpc hget habst hcc heval hnx hlive
    rw [evalStep_dispatch p st st2 pc stmt (.Back m) st' hpc hget habst hcc heval]
    exact ((comefromAt_spec p st' m).1 nx hnx).1 hlive
  · intro p st st2 st' pc m stmt hpc hget habst hcc heval hdead
    rw [evalStep_dispatch p st st2 pc stmt (.Back m) st' hpc hget habst hcc heval]
    rcases hdead with hnone | ⟨nx, hnx, habs⟩
    · exact (comefromAt_spec p st' m).2 hnone
    · exact ((comefromAt_spec p st' m).1 nx hnx).2 habs
  · intro p st pc nx hpc habst hnx hlive
    rw [evalStep_abstained p st pc hpc habst]
    exact ((comefromAt_spec p (bump st) pc).1 nx hnx).1 hlive
  · intro p st pc hpc habst hdead
    rw [evalStep_abstained p st pc hpc habst]
    rcases hdead with hnone | ⟨nx, hnx, habs⟩
    · exact (comefromAt_spec p (bump st) pc).2 hnone
    · exact ((comefromAt_spec p (bump st) pc).1 nx hnx).2 habs
  · intro p st st2 pc nx stmt hpc hget habst hcc hnx hlive
    rw [evalStep_chance_skip p st st2 pc stmt hpc hget habst hcc]
    exact ((comefromAt_spec p st2 pc).1 nx hnx).1 hlive
  · intro p st st2 pc stmt hpc hget habst hcc hdead
    rw [evalStep_chance_skip p st st2 pc stmt hpc hget habst hcc]
    rcases hdead with hnone | ⟨nx, hnx, habs⟩
    · exact (comefromAt_spec p st2 pc).2 hnone
    · exact ((comefromAt_spec p st2 pc).1 nx hnx).2 habs

/-- Witness for C2: the Jump translation on `pC4` (DoNext pushes index 0 and
continues at the label's index 1) and the Next translation on `pC2w` (no
COME-FROM recorded, so the program counter advances by one). -/
theorem C2_witness :
    evalStep pC4 (initState pC4 [] [] []) 0 =
      .cont 1 { bump (initState pC4 [] [] []) with jumps := [0] } ∧
    evalStep pC2w (initState pC2w [] [] []) 0 =
      .cont 1 (bump (initState pC2w [] [] [])) := by
  constructor
  · exact (C2_loop_step_translation.1 pC4 (initState pC4 [] [] [])
      (bump (initState pC4 [] [] [])) (bump (initState pC4 [] [] [])) 0 1
      { body := .DoNext 7,
        props := { label := 0, srcline := 1, chance := 100, disabled := false },
        comefrom := none, can_abstain := false }
      (by decide) rfl rfl rfl rfl).2 (by decide)
  · exact C2_loop_step_translation.2.2.1 pC2w (initState pC2w [] [] [])
      (bump (initState pC2w [] [] [])) (bump (initState pC2w [] [] [])) 0
      { body := .ComeFrom 1,
        props := { label := 0, srcline := 1, chance := 100, disabled := false },
        comefrom := none, can_abstain := false }
      (by decide) rfl rfl rfl rfl (Or.inl rfl)

/-- Witness for C4: on `pC4`, the DoNext dispatch jumps to index 1, and the
full step pushes the caller index 0 on the NEXT stack. -/
theorem C4_witness :
    evalStmt pC4 (initState pC4 [] [] [])
      { body := .DoNext 7,
        props := { label := 0, srcline := 1, chance := 100, disabled := false },
        comefrom := none, can_abstain := false } =
      .ok (.Jump 1, initState pC4 [] [] []) ∧
    evalStep pC4 (initState pC4 [] [] []) 0 =
      .cont 1 { bump (initState pC4 [] [] []) with jumps := [0] } := by
  constructor
  · exact C4_donext_spec.2.2.1 pC4 (initState pC4 [] [] [])
      { body := .DoNext 7,
        props := { label := 0, srcline := 1, chance := 100, disabled := false },
        comefrom := none, can_abstain := false }
      7 1 rfl rfl (by decide)
  · exact (C4_donext_spec.2.2.2.1 pC4 (initState pC4 [] [] [])
      (bump (initState pC4 [] [] [])) 0
      { body := .DoNext 7,
        props := { label := 0, srcline := 1, chance := 100, disabled := false },
        comefrom := none, can_abstain := false }
      7 1 (by decide) rfl rfl rfl rfl rfl (by decide)).2 (by decide)

/- #### Shared groundwork for the optimizer-pass claims (C3, C8, C9). -/

theorem setMatchingVal_length (w : Abstn) (b : Bool) :
    ∀ (ts : List Abstn) (k : Nat) (ab ab' : List Bool),
      setMatchingVal w b k ts ab = some ab' → ab'.length = ab.length := by
  intro ts
  induction ts with
  | nil =>
      intro k ab ab' h
      unfold setMatchingVal at h
      cases h
      rfl
  | cons t ts ih =>
      intro k ab ab' h
      unfold setMatchingVal at h
      by_cases ht : t = w
      · rw [if_pos ht] at h
        by_cases hk : k < ab.length
        · rw [if_pos hk] at h
          rw [ih (k + 1) (ab.set k b) ab' h, List.length_set]
        · rw [if_neg hk] at h
          exact Option.noConfusion h
      · rw [if_neg ht] at h
        exact ih (k + 1) ab ab' h

theorem abstainFn_length (p : Program) (ab : List Bool) (w : Abstn) (b : Bool)
    (ab' : List Bool) (h : abstainFn p ab w b = some ab') :
    ab'.length = ab.length := by
  cases w
  case Label lbl =>
    simp only [abstainFn] at h
    split at h
    · rename_i idx hl
      split at h
      · rename_i hidx
        cases h
        simp [List.length_set]
      · exact Option.noConfusion h
    · exact Option.noConfusion h
  all_goals
    exact setMatchingVal_length _ _ p.stmt_types 0 ab ab' h

theorem applyWhats_length (p : Program) :
    ∀ (ws : List Abstn) (ab ab' : List Bool),
      applyWhats p ws ab = some ab' → ab'.length = ab.length := by
  intro ws
  induction ws with
  | nil =>
      intro ab ab' h
      unfold applyWhats at h
      cases h
      rfl
  | cons w ws ih =>
      intro ab ab' h
      unfold applyWhats at h
      cases hb : abstainFn p ab w true with
      | none =>
          simp only [hb, Option.none_bind] at h
          exact Option.noConfusion h
      | some ab1 =>
          simp only [hb, Option.some_bind] at h
          rw [ih ab1 ab' h]
          exact abstainFn_length p ab w true ab1 hb

theorem computeCA_length (p : Program) :
    ∀ (ss : List Stmt) (ab ab' : List Bool),
      computeCA p ss ab = some ab' → ab'.length = ab.length := by
  intro ss
  induction ss with
  | nil =>
      intro ab ab' h
      unfold computeCA at h
      cases h
      rfl
  | cons s ss ih =>
      intro ab ab' h
      unfold computeCA at h
      cases hbt : bodyTargets s.body with
      | none =>
          simp only [hbt] at h
          exact ih ab ab' h
      | some ws =>
          simp only [hbt] at h
          cases ha : applyWhats p ws ab with
          | none =>
              simp only [ha, Option.none_bind] at h
              exact Option.noConfusion h
          | some ab1 =>
              simp only [ha, Option.some_bind] at h
              rw [ih ab1 ab' h]
              exact applyWhats_length p ws ab ab1 ha

theorem setMatchingVal_char (w : Abstn) :
    ∀ (ts : List Abstn) (k : Nat) (ab ab' : List Bool),
      setMatchingVal w true k ts ab = some ab' →
      ∀ i, (ab'[i]? = some true ↔
        (ab[i]? = some true ∨ ∃ j, ts[j]? = some w ∧ i = k + j)) := by
  intro ts
  induction ts with
  | nil =>
      intro k ab ab' h i
      unfold setMatchingVal at h
      cases h
      simp
  | cons t ts ih =>
      intro k ab ab' h i
      unfold setMatchingVal at h
      by_cases ht : t = w
      · rw [if_pos ht] at h
        by_cases hk : k < ab.length
        · rw [if_pos hk] at h
          rw [ih (k + 1) (ab.set k true) ab' h i]
          subst ht
          rw [List.getElem?_set]
          constructor
          · rintro (h1 | ⟨j, hj, rfl⟩)
            · by_cases hki : k = i
              · subst hki
                exact Or.inr ⟨0, List.getElem?_cons_zero, by omega⟩
              · rw [if_neg hki] at h1
                exact Or.inl h1
            · refine Or.inr ⟨j + 1, ?_, by omega⟩
              rw [List.getElem?_cons_succ]
              exact hj
          · rintro (h1 | ⟨j, hj, hij⟩)
            · by_cases hki : k = i
              · refine Or.inl ?_
                rw [if_pos hki, if_pos hk]
              · refine Or.inl ?_
                rw [if_neg hki]
                exact h1
            · cases j with
              | zero =>
                  refine Or.inl ?_
                  rw [if_pos (show k = i by omega), if_pos hk]
              | succ j =>
                  rw [List.getElem?_cons_succ] at hj
                  exact Or.inr ⟨j, hj, by omega⟩
        · rw [if_neg hk] at h
          exact Option.noConfusion h
      · rw [if_neg ht] at h
        rw [ih (k + 1) ab ab' h i]
        constructor
        · rintro (h1 | ⟨j, hj, rfl⟩)
          · exact Or.inl h1
          · refine Or.inr ⟨j + 1, ?_, by omega⟩
            rw [List.getElem?_cons_succ]
            exact hj
        · rintro (h1 | ⟨j, hj, hij⟩)
          · exact Or.inl h1
          · cases j with
            | zero =>
                rw [List.getElem?_cons_zero] at hj
                injection hj with hj2
                exact absurd hj2 ht
            | succ j =>
                rw [List.getElem?_cons_succ] at hj
                exact Or.inr ⟨j, hj, by omega⟩

theorem setMatchingVal_char_zero (w : Abstn) (ts : List Abstn)
    (ab ab' : List Bool) (h : setMatchingVal w true 0 ts ab = some ab')
    (i : Nat) :
    ab'[i]? = some true ↔ (ab[i]? = some true ∨ ts[i]? = some w) := by
  rw [setMatchingVal_char w ts 0 ab ab' h i]
  constructor
  · rintro (h1 | ⟨j, hj, rfl⟩)
    · exact Or.inl h1
    · rw [Nat.zero_add]
      exact Or.inr hj
  · rintro (h1 | h2)
    · exact Or.inl h1
    · exact Or.inr ⟨i, h2, by omega⟩

theorem abstainFn_char (p : Program) (ab : List Bool) (w : Abstn)
    (ab' : List Bool) (h : abstainFn p ab w true = some ab') (i : Nat) :
    ab'[i]? = some true ↔ (ab[i]? = some true ∨ TargetsIdx p w i) := by
  cases w
  case Label lbl =>
    simp only [abstainFn] at h
    split at h
    · rename_i idx hl
      split at h
      · rename_i hidx
        cases h
        simp only [TargetsIdx, hl, List.getElem?_set]
        rcases eq_or_ne idx i with rfl | hne
        · simp [hidx]
        · simp [hne]
      · exact Option.noConfusion h
    · exact Option.noConfusion h
  all_goals
    have h2 : setMatchingVal _ true 0 p.stmt_types ab = some ab' := h
    rw [setMatchingVal_char_zero _ _ _ _ h2 i]
    exact Iff.rfl

theorem applyWhats_char (p : Program) :
    ∀ (ws : List Abstn) (ab ab' : List Bool),
      applyWhats p ws ab = some ab' → ∀ i,
      (ab'[i]? = some true ↔
        (ab[i]? = some true ∨ ∃ w ∈ ws, TargetsIdx p w i)) := by
  intro ws
  induction ws with
  | nil =>
      intro ab ab' h i
      unfold applyWhats at h
      cases h
      simp
  | cons w ws ih =>
      intro ab ab' h i
      unfold applyWhats at h
      cases hb : abstainFn p ab w true with
      | none =>
          simp only [hb, Option.none_bind] at h
          exact Option.noConfusion h
      | some ab1 =>
          simp only [hb, Option.some_bind] at h
          rw [ih ab1 ab' h i, abstainFn_char p ab w ab1 hb i]
          constructor
          · rintro ((h1 | h2) | ⟨w', hw', ht'⟩)
            · exact Or.inl h1
            · exact Or.inr ⟨w, List.mem_cons_self w ws, h2⟩
            · exact Or.inr ⟨w', List.mem_cons_of_mem w hw', ht'⟩
          · rintro (h1 | ⟨w', hw', ht'⟩)
            · exact Or.inl (Or.inl h1)
            · rcases List.mem_cons.mp hw' with rfl | hmem
              · exact Or.inl (Or.inr ht')
              · exact Or.inr ⟨w', hmem, ht'⟩

theorem targetedIn_cons (p : Program) (s : Stmt) (ss : List Stmt) (i : Nat) :
    TargetedIn p (s :: ss) i ↔
      ((∃ ws, bodyTargets s.body = some ws ∧ ∃ w ∈ ws, TargetsIdx p w i) ∨
       TargetedIn p ss i) := by
  simp only [TargetedIn, List.mem_cons]
  constructor
  · rintro ⟨s', hs', rest⟩
    rcases hs' with rfl | hmem
    · exact Or.inl rest
    · exact Or.inr ⟨s', hmem, rest⟩
  · rintro (rest | ⟨s', hmem, rest⟩)
    · exact ⟨s, Or.inl rfl, rest⟩
    · exact ⟨s', Or.inr hmem, rest⟩

theorem computeCA_char (p : Program) :
    ∀ (ss : List Stmt) (ab ab' : List Bool),
      computeCA p ss ab = some ab' → ∀ i,
      (ab'[i]? = some true ↔
        (ab[i]? = some true ∨ TargetedIn p ss i)) := by
  intro ss
  induction ss with
  | nil =>
      intro ab ab' h i
      unfold computeCA at h
      cases h
      simp [TargetedIn]
  | cons s ss ih =>
      intro ab ab' h i
      unfold computeCA at h
      cases hbt : bodyTargets s.body with
      | none =>
          simp only [hbt] at h
          rw [ih ab ab' h i, targetedIn_cons]
          constructor
          · rintro (h1 | h2)
            · exact Or.inl h1
            · exact Or.inr (Or.inr h2)
          · rintro (h1 | (⟨ws, hws, hrest⟩ | h2))
            · exact Or.inl h1
            · rw [hbt] at hws
              exact Option.noConfusion hws
            · exact Or.inr h2
      | some ws =>
          simp only [hbt] at h
          cases ha : applyWhats p ws ab with
          | none =>
              simp only [ha, Option.none_bind] at h
              exact Option.noConfusion h
          | some ab1 =>
              simp only [ha, Option.some_bind] at h
              rw [ih ab1 ab' h i, applyWhats_char p ws ab ab1 ha i,
                targetedIn_cons]
              constructor
              · rintro ((h1 | h2) | h3)
                · exact Or.inl h1
                · exact Or.inr (Or.inl ⟨ws, hbt, h2⟩)
                · exact Or.inr (Or.inr h3)
              · rintro (h1 | (⟨ws', hws', h2⟩ | h3))
                · exact Or.inl (Or.inl h1)
                · rw [hbt] at hws'
                  injection hws' with hww
                  subst hww
                  exact Or.inl (Or.inr h2)
                · exact Or.inr h3

/- #### Claim C3. -/

/-- C3: if the constant-output pass qualifies the program, then when the
speculative evaluation succeeds the pass replaces the whole program by
exactly two statements — Print of the captured output followed by GiveUp —
with the label map cleared, a single fresh stmt-type tag, empty variable
tables and both stdlib flags reset; when the speculative evaluation returns
an error the pass returns the input program unchanged. -/
theorem C3_const_output_rewrite (fuel : Nat) (p : Program)
    (hq : constQual p = true) :
    (∀ n st, runEval fuel p [] [] [] = .ok n st →
      opt_const_output fuel p = some
        { stmts := [Stmt.new_with (.Print st.output), Stmt.new_with .GiveUp]
          labels := []
          stmt_types := [.Label 0]
          var_info := ([], [], [], [])
          uses_complex_comefrom := false
          added_syslib := false
          added_floatlib := false
          bugline := 2 }) ∧
    (∀ e, runEval fuel p [] [] [] = .err e →
      opt_const_output fuel p = some p) := by
  constructor
  · intro n st h
    unfold opt_const_output
    rw [if_neg (by simp [hq]), h]
  · intro e h
    unfold opt_const_output
    rw [if_neg (by simp [hq]), h]

/-- C3 witness: the single-GiveUp program `pC3w` qualifies; with fuel 5 its
speculative run succeeds with empty output, and the pass rewrites it to the
two-statement Print/GiveUp program. -/
theorem C3_witness :
    opt_const_output 5 pC3w = some
      { stmts := [Stmt.new_with (.Print []), Stmt.new_with .GiveUp]
        labels := []
        stmt_types := [.Label 0]
        var_info := ([], [], [], [])
        uses_complex_comefrom := false
        added_syslib := false
        added_floatlib := false
        bugline := 2 } :=
  (C3_const_output_rewrite 5 pC3w rfl).1 1 (bump (initState pC3w [] [] [])) rfl

/- #### Claim C9. -/

/-- Counterexample to C9 as stated: the program `pC9x` satisfies the
one-tag-per-statement invariant (one statement, one tag) and qualifies for
the constant-output pass, but the rewritten program the pass produces has two
statements and only one stmt-type tag — the constant-output rewrite breaks
the parallel-tags invariant. -/
theorem C9_counterexample :
    pC9x.stmt_types.length = pC9x.stmts.length ∧
    (opt_const_output 5 pC9x).map
      (fun q => (q.stmts.length, q.stmt_types.length)) = some (2, 1) :=
  ⟨rfl, rfl⟩

/-- C9 (amended): the constant-fold and expression passes preserve the
statement count and leave the stmt-type table unchanged; the abstain-check
pass, when it succeeds, preserves the statement count and the stmt-type
table; the var-check pass leaves statements and stmt-types unchanged; the
constant-output pass either returns the input unchanged or returns the fixed
rewrite, which has two statements but a single stmt-type tag.  Hence every
pass except the constant-output rewrite preserves the one-tag-per-statement
invariant, and the rewrite itself breaks it. -/
theorem C9_pass_tag_lengths :
    (∀ p : Program, (opt_constant_fold p).stmts.length = p.stmts.length ∧
      (opt_constant_fold p).stmt_types = p.stmt_types) ∧
    (∀ (fuel : Nat) (p : Program),
      (opt_expressions fuel p).stmts.length = p.stmts.length ∧
      (opt_expressions fuel p).stmt_types = p.stmt_types) ∧
    (∀ p q : Program, opt_abstain_check p = some q →
      q.stmts.length = p.stmts.length ∧ q.stmt_types = p.stmt_types) ∧
    (∀ p q : Program, opt_var_check p = some q →
      q.stmts = p.stmts ∧ q.stmt_types = p.stmt_types) ∧
    (∀ (fuel : Nat) (p q : Program), opt_const_output fuel p = some q →
      q = p ∨ (q.stmts.length = 2 ∧ q.stmt_types.length = 1)) := by
  refine ⟨?_, ?_, ?_, ?_, ?_⟩
  · intro p
    exact ⟨by simp [opt_constant_fold], rfl⟩
  · intro fuel p
    exact ⟨by simp [opt_expressions], rfl⟩
  · intro p q h
    simp only [opt_abstain_check, Option.map_eq_some'] at h
    obtain ⟨ca, hca, hq⟩ := h
    have hlen : ca.length = p.stmts.length := by
      have h1 := computeCA_length p p.stmts
        (List.replicate p.stmts.length false) ca hca
      rwa [List.length_replicate] at h1
    subst hq
    refine ⟨?_, rfl⟩
    have h2 : (List.zipWith
        (fun s c => if s.body.isGiveUp then s else { s with can_abstain := c })
        p.stmts ca).length = p.stmts.length := by
      rw [List.length_zipWith, hlen]
      exact Nat.min_self _
    exact h2
  · intro p q h
    simp only [opt_var_check, Option.map_eq_some'] at h
    obtain ⟨vt, hvt, hq⟩ := h
    subst hq
    exact ⟨rfl, rfl⟩
  · intro fuel p q h
    unfold opt_const_output at h
    split at h
    · cases h
      exact Or.inl rfl
    · split at h
      · cases h
        exact Or.inr ⟨rfl, rfl⟩
      · cases h
        exact Or.inl rfl
      · exact Option.noConfusion h
      · exact Option.noConfusion h

/-- C9 witness: the amended theorem applied at `pC9x` — constant fold
preserves its statement count, and the constant-output pass sends `pC9x` to
`qC9r`, which is not `pC9x` and has two statements with one tag. -/
theorem C9_witness :
    (opt_constant_fold pC9x).stmts.length = pC9x.stmts.length ∧
    (qC9r = pC9x ∨ (qC9r.stmts.length = 2 ∧ qC9r.stmt_types.length = 1)) :=
  ⟨(C9_pass_tag_lengths.1 pC9x).1,
   C9_pass_tag_lengths.2.2.2.2 5 pC9x qC9r rfl⟩

/- #### Claim C8. -/

/-- Counterexample to C8 as stated: `pC8x` contains no Abstain/Reinstate
statement, and its single GiveUp statement enters the pass with
`can_abstain = true`; `opt_abstain_check` leaves the flag `true` (the source
skips GiveUp statements instead of forcing their flag to `false`), so GiveUp
statements do not unconditionally end the pass with `can_abstain = false`. -/
theorem C8_counterexample :
    (opt_abstain_check pC8x).map (fun q => q.stmts.map Stmt.can_abstain) =
      some [true] :=
  rfl

/-- C8 (amended): after `opt_abstain_check`, the statement list keeps its
length; every GiveUp statement is returned untouched — keeping its incoming
`can_abstain` flag rather than unconditionally ending with `false` — and
every non-GiveUp statement keeps its body and gets `can_abstain = true`
exactly when some Abstain/Reinstate statement of the program targets it by
label or by stmt-type tag. -/
theorem C8_abstain_check (p q : Program) (h : opt_abstain_check p = some q) :
    q.stmts.length = p.stmts.length ∧
    ∀ i s, p.stmts[i]? = some s →
      (s.body.isGiveUp = true → q.stmts[i]? = some s) ∧
      (s.body.isGiveUp = false →
        (q.stmts[i]?).map Stmt.body = some s.body ∧
        ((q.stmts[i]?).map Stmt.can_abstain = some true ↔ Targeted p i)) := by
  simp only [opt_abstain_check, Option.map_eq_some'] at h
  obtain ⟨ca, hca, hq⟩ := h
  have hca_len : ca.length = p.stmts.length := by
    have h1 := computeCA_length p p.stmts
      (List.replicate p.stmts.length false) ca hca
    rwa [List.length_replicate] at h1
  subst hq
  constructor
  · have h2 : (List.zipWith
        (fun s c => if s.body.isGiveUp then s else { s with can_abstain := c })
        p.stmts ca).length = p.stmts.length := by
      rw [List.length_zipWith, hca_len]
      exact Nat.min_self _
    exact h2
  · intro i s hs
    have hi : i < p.stmts.length := by
      rcases Nat.lt_or_ge i p.stmts.length with h1 | h1
      · exact h1
      · rw [List.getElem?_eq_none h1] at hs
        exact Option.noConfusion hs
    have hic : i < ca.length := by
      rw [hca_len]
      exact hi
    obtain ⟨c, hc⟩ : ∃ c, ca[i]? = some c :=
      ⟨ca[i], List.getElem?_eq_getElem hic⟩
    have hq1 : (List.zipWith
        (fun s c => if s.body.isGiveUp then s else { s with can_abstain := c })
        p.stmts ca)[i]? =
        some (if s.body.isGiveUp then s else { s with can_abstain := c }) := by
      rw [List.getElem?_zipWith, hs, hc]
    constructor
    · intro hg
      show (List.zipWith
        (fun s c => if s.body.isGiveUp then s else { s with can_abstain := c })
        p.stmts ca)[i]? = some s
      rw [hq1, if_pos hg]
    · intro hg
      have hq2 : (List.zipWith
          (fun s c => if s.body.isGiveUp then s
            else { s with can_abstain := c })
          p.stmts ca)[i]? = some { s with can_abstain := c } := by
        rw [hq1, if_neg (by simp [hg])]
      constructor
      · show ((List.zipWith
          (fun s c => if s.body.isGiveUp then s
            else { s with can_abstain := c })
          p.stmts ca)[i]?).map Stmt.body = some s.body
        rw [hq2]
        rfl
      · show ((List.zipWith
          (fun s c => if s.body.isGiveUp then s
            else { s with can_abstain := c })
          p.stmts ca)[i]?).map Stmt.can_abstain = some true ↔ Targeted p i
        rw [hq2]
        have hchar := computeCA_char p p.stmts
          (List.replicate p.stmts.length false) ca hca i
        rw [hc, List.getElem?_replicate, if_pos hi] at hchar
        show some c = some true ↔ Targeted p i
        rw [hchar]
        unfold Targeted
        simp

/-- C8 witness: on `pC8w` the pass produces `qC8w`; the GiveUp statement at
index 2 is returned untouched, and the statement at index 1 (designated by
the ABSTAIN's Label 9 target) carries `can_abstain = true` exactly when it is
targeted. -/
theorem C8_witness :
    (qC8w.stmts[2]? = some sC8give) ∧
    ((qC8w.stmts[1]?).map Stmt.can_abstain = some true ↔ Targeted pC8w 1) :=
  ⟨((C8_abstain_check pC8w qC8w rfl).2 2 sC8give rfl).1 rfl,
   (((C8_abstain_check pC8w qC8w rfl).2 1 sC8come rfl).2 rfl).2⟩
